import Mathlib

/-!
HDLC frame-body interpreter.

A shallow embedding of `HDLCFrameBodyInterpreter.cpp` and theorems about it.

* `std::string` is `String`, `Strings` (a `std::vector<std::string>`) is `List String`.
* A C++ call that can throw, or whose behaviour the language leaves undefined, returns
  `Except Failure _`; the constructor of `Failure` says which of the two happened and where.
* Logging (`LOG(...)`) has no effect on the returned value and is left out.
-/

namespace HDLC

/-! ## Failures -/

/-- The ways in which a call of the interpreter does not return a value. -/
inductive Failure where
  /-- `std::out_of_range` thrown by `std::vector::at`. -/
  | outOfRange
  /-- `std::invalid_argument` thrown by `std::stoi`: no digit could be converted. -/
  | invalidArgument
  /-- `std::out_of_range` thrown by `std::stoi`: the number does not fit an `int`. -/
  | stoiOutOfRange
  /-- Undefined behaviour of the C++ program: an iterator range outside the container,
  `pop_front` or `pop_back` on an empty `std::deque`, the read of an uninitialised variable.
  The code makes no check at these places and C++ does not say what the program does from
  there on: nothing is thrown by the statement itself. The model stops with this value. -/
  | undefinedBehaviour
  /-- The step budget of the `while` loop of `interpretBodyFrameXID` ran out. The C++ loop has
  no budget; `subgroupWalk_budget_suffices` shows that this value is never produced by
  `interpretBodyFrameXID`. -/
  | loopBudget
  deriving DecidableEq, Repr

deriving instance DecidableEq for Except

/-! ## Characters and numbers of the C and C++ library -/

/-- The C locale's `isspace`: space, `\t`, `\n`, `\v`, `\f`, `\r`. -/
def isSpaceChar (c : Char) : Bool :=
  c.toNat = 32 || (9 ≤ c.toNat && c.toNat ≤ 13)

/-- Value of a hexadecimal digit, `none` for any other character. -/
def hexDigitVal (c : Char) : Option Nat :=
  if 48 ≤ c.toNat ∧ c.toNat ≤ 57 then some (c.toNat - 48)
  else if 97 ≤ c.toNat ∧ c.toNat ≤ 102 then some (c.toNat - 87)
  else if 65 ≤ c.toNat ∧ c.toNat ≤ 70 then some (c.toNat - 55)
  else none

/-- Leading white space is skipped, by `strtol` and by the stream's `skipws` alike. -/
def skipSpaces : List Char → List Char
  | [] => []
  | c :: cs => if isSpaceChar c then skipSpaces cs else c :: cs

/-- An optional `+` or `-`: whether the sign is `-`, and the rest. -/
def takeSign : List Char → Bool × List Char
  | [] => (false, [])
  | c :: cs => if c = '-' then (true, cs) else if c = '+' then (false, cs) else (false, c :: cs)

/-- The number denoted by the longest run of hexadecimal digits at the front, given the
value `acc` of the digits already read, and whether a digit was read. -/
def hexDigitsValue : List Char → Nat → Bool → Nat × Bool
  | [], acc, seen => (acc, seen)
  | c :: cs, acc, seen =>
    match hexDigitVal c with
    | some d => hexDigitsValue cs (16 * acc + d) true
    | none => (acc, seen)

/-- Magnitude of a base-16 number after the sign: an optional `0x` or `0X`, then hexadecimal
digits. `none` when no digit can be converted. After `0x` the digits may be missing: `strtol`
then converts the `0` alone, and the stream stores `0`. -/
def hexMagnitude : List Char → Option Nat
  | [] => none
  | c :: cs =>
    if c = '0' then
      match cs with
      | x :: ds => if x = 'x' ∨ x = 'X' then some (hexDigitsValue ds 0 false).1
                   else some (hexDigitsValue cs 0 true).1
      | [] => some 0
    else
      match hexDigitsValue (c :: cs) 0 false with
      | (v, true) => some v
      | (_, false) => none

/-- Modelled from the spec: the largest value of the alias `HexInt`, which is declared in a
header outside `src/`. The spec calls the result of `toHexInt` "an unsigned integer value";
it is taken to be a 32-bit `unsigned int`. -/
def HEXINT_MAX : Nat := 2 ^ 32 - 1

/-- Modelled from the spec: the conversion of a `HexInt` to the alias `Hex`, which is declared
in a header outside `src/`. The spec's byte value is "an 8-bit-range unsigned integer", so
the conversion keeps the low 8 bits. -/
def narrowToHex (h : Nat) : Nat := h % 256

/-- Model of `toHexInt`: `std::istringstream >> std::hex >> byteHex` into a `HexInt`.
The stream skips white space; when nothing is left the extraction does not start and
`byteHex`, which has no initialiser, is returned as it is: an uninitialised read. The
source carries on with that indeterminate value; the model has no value for it and stops
with `Failure.undefinedBehaviour`, so a theorem that compares the outcomes of two runs is
stated for runs that do not end in this value. Otherwise
`num_get` reads a sign, an optional `0x` and hexadecimal digits; it stores `0` when there is
no digit, the largest value on overflow, and the negated value modulo `HEXINT_MAX + 1`
after `-`.
The stream's fail bit is never looked at and nothing is thrown. -/
def toHexInt (receivedByteStr : String) : Except Failure Nat :=
  match skipSpaces receivedByteStr.data with
  | [] => .error .undefinedBehaviour
  | cs =>
    let (neg, rest) := takeSign cs
    let m := (hexMagnitude rest).getD 0
    if HEXINT_MAX < m then .ok HEXINT_MAX
    else if neg then .ok ((HEXINT_MAX + 1 - m) % (HEXINT_MAX + 1))
    else .ok m

/-- Model of `toInt`: `stoi(receivedByteStr, 0, HEX_BASE)`. `strtol` skips white space, reads
a sign, an optional `0x` and hexadecimal digits and stops at the first other character.
`stoi` throws `std::invalid_argument` when no digit was converted and `std::out_of_range`
when the value is not an `int`. -/
def toInt (receivedByteStr : String) : Except Failure Int :=
  let (neg, rest) := takeSign (skipSpaces receivedByteStr.data)
  match hexMagnitude rest with
  | none => .error .invalidArgument
  | some m =>
    let v : Int := if neg then - (m : Int) else (m : Int)
    if v < - 2 ^ 31 ∨ 2 ^ 31 - 1 < v then .error .stoiOutOfRange else .ok v

/-! ## Containers -/

/-- The alias `Strings`: a `std::vector<std::string>`. -/
abbrev Strings := List String

/-- Model of `std::vector::at`: the element at index `k`, or `std::out_of_range`. -/
def vectorAt (v : Strings) (k : Nat) : Except Failure String :=
  match v[k]? with
  | some t => .ok t
  | none => .error .outOfRange

/-- Model of `slice`: the vector built from the iterator range
`[cbegin + idxOfStart, cbegin + idxOfStart + length)`. The function checks nothing; a range
that is reversed or leaves the vector is undefined behaviour. -/
def slice (inVec : Strings) (idxOfStart : Int) (length : Int) : Except Failure Strings :=
  if idxOfStart < 0 ∨ length < 0 ∨ (inVec.length : Int) < idxOfStart + length then
    .error .undefinedBehaviour
  else .ok ((inVec.drop idxOfStart.toNat).take length.toNat)

/-- Model of `toHexesInt`: `toHexInt` of every token, in order. -/
def toHexesInt : Strings → Except Failure (List Nat)
  | [] => .ok []
  | t :: ts => do
    let h ← toHexInt t
    let hs ← toHexesInt ts
    pure (h :: hs)

/-- Model of `toHexes`: every `HexInt` is converted to a `Hex`, in order. -/
def toHexes (plainFrames : List Nat) : List Nat :=
  plainFrames.map narrowToHex

/-- Model of `std::deque::pop_front`, undefined on an empty deque. -/
def popFront : Strings → Except Failure Strings
  | [] => .error .undefinedBehaviour
  | _ :: rest => .ok rest

/-- Model of `std::deque::pop_back`, undefined on an empty deque. -/
def popBack : Strings → Except Failure Strings
  | [] => .error .undefinedBehaviour
  | t :: rest => .ok (t :: rest).dropLast

/-- Model of `trimFlagsAndCRC`: the start flag is popped from the front, then the stop flag
and the two CRC bytes from the back. -/
def trimFlagsAndCRC (lexedInput : Strings) : Except Failure Strings := do
  let retVal ← popFront lexedInput
  let retVal ← popBack retVal
  let retVal ← popBack retVal
  popBack retVal

/-! ## Frame records

The classes `FrameI`, `FrameU`, `FrameXID` and `HDLCParametersValues` are declared in headers
outside `src/`. The spec describes them as "plain data records this core constructs and
populates": every field holds the value its setter received. -/

/-- Modelled from the spec: the class `HDLCParametersValues`, declared outside `src/`; one
parameter group of an XID frame, "parameter id (a decoded byte value), declared length (an
integer), and a sequence of value bytes", as built by `HDLCParametersValues::build`. -/
structure HDLCParametersValues where
  parId : Nat
  parLen : Int
  parVals : List Nat
  deriving DecidableEq, Repr

/-- Modelled from the spec: the class `FrameI`, declared outside `src/`: "address byte,
control byte, procedure code, a 2-byte parameter-length field, and an optional
parameter-value byte sequence". `parameterValues` is `none` until `setParameterValues` is
called. -/
structure FrameI where
  addressByte : Nat
  controlByte : Nat
  procedureCode : Nat
  parameterLength : List Nat
  parameterValues : Option (List Nat)
  deriving DecidableEq, Repr

/-- Modelled from the spec: the class `FrameU`, declared outside `src/`: "address byte,
control byte only". -/
structure FrameU where
  addressByte : Nat
  controlByte : Nat
  deriving DecidableEq, Repr

/-- Modelled from the spec: the class `FrameXID`, declared outside `src/`: "address byte,
control byte, format-identifier byte, group-identifier byte, group-length byte, and an
ordered sequence of parameter groups"; `addParameters` appends to `parameters`. -/
structure FrameXID where
  addressByte : Nat
  controlByte : Nat
  formatIdentifierByte : Nat
  groupIdentifierByte : Nat
  groupLengthByte : Nat
  parameters : List HDLCParametersValues
  deriving DecidableEq, Repr

/-- What a non-null `HDLCFrameBodyPtr` points to. -/
inductive HDLCFrameBody where
  | frameI (f : FrameI)
  | frameU (f : FrameU)
  | frameXID (f : FrameXID)
  deriving DecidableEq, Repr

/-- The control-byte constants `BYTE_CONTROL::XID`, `frameU::BYTE_CONTROL::SNRM`,
`frameU::BYTE_CONTROL::UA`, `frameI::BYTE_CONTROL::CALIBRATE_REQ` and
`frameI::BYTE_CONTROL::CALIBRATE_RES`. They are declared in `HDLC/MessagesHelpers.hpp`,
outside `src/`, so the interpreter takes them as a parameter. -/
structure ByteControl where
  XID : Nat
  SNRM : Nat
  UA : Nat
  CALIBRATE_REQ : Nat
  CALIBRATE_RES : Nat
  deriving DecidableEq, Repr

/-! ## The decoders -/

/-- The constant `ZERO_STRING`. -/
abbrev ZERO_STRING : String := "0"

/-- The constant `IDX_OF_ADDR_BYTE`. -/
abbrev IDX_OF_ADDR_BYTE : Nat := 0
/-- The constant `IDX_OF_CTRL_BYTE`. -/
abbrev IDX_OF_CTRL_BYTE : Nat := 1
/-- The constant `IDX_OF_FORMAT_ID_BYTE`. -/
abbrev IDX_OF_FORMAT_ID_BYTE : Nat := 2
/-- The constant `IDX_OF_GROUP_ID_BYTE`. -/
abbrev IDX_OF_GROUP_ID_BYTE : Nat := 3
/-- The constant `IDX_OF_GROUP_LENGTH_BYTE`. -/
abbrev IDX_OF_GROUP_LENGTH_BYTE : Nat := 4
/-- The constant `IDX_OF_HDLC_PARAMETERS_START`. -/
abbrev IDX_OF_HDLC_PARAMETERS_START : Nat := 5
/-- The constant `IDX_OF_LENGTH_BYTE_FST_BIG_END`. -/
abbrev IDX_OF_LENGTH_BYTE_FST_BIG_END : Nat := 3
/-- The constant `IDX_OF_LENGTH_BYTE_SND_BIG_END`. -/
abbrev IDX_OF_LENGTH_BYTE_SND_BIG_END : Nat := 4
/-- The constant `IDX_OF_PROC_BYTE`. -/
abbrev IDX_OF_PROC_BYTE : Nat := 2
/-- The constant `IDX_OF_SUBGROUP_LENGTH_BYTE`. -/
abbrev IDX_OF_SUBGROUP_LENGTH_BYTE : Nat := 1
/-- The constant `IDX_OF_SUBGROUP_PAR_ID`. -/
abbrev IDX_OF_SUBGROUP_PAR_ID : Nat := 0
/-- The constant `IDX_OF_SUBGROUP_VALUES_START`. -/
abbrev IDX_OF_SUBGROUP_VALUES_START : Nat := 2
/-- The constant `IDX_OF_VAL_BYTE`. -/
abbrev IDX_OF_VAL_BYTE : Nat := 5
/-- The constant `OFFSET_FOR_IDX_OF_SUBGROUP_VALUES`. -/
abbrev OFFSET_FOR_IDX_OF_SUBGROUP_VALUES : Nat := 2

/-- Model of `addHdlcParametersAndReturnPosition`: one subgroup is read at offset `i` of the
parameter area and appended to `parameters`; the offset after the subgroup is returned.
`slice` has succeeded when `i` is advanced, so `parLen` is not negative there. -/
def addHdlcParametersAndReturnPosition (parameters : List HDLCParametersValues)
    (slicedVector : Strings) (i : Nat) : Except Failure (List HDLCParametersValues × Nat) := do
  let parId ← toHexInt (← vectorAt slicedVector (i + IDX_OF_SUBGROUP_PAR_ID))
  let parLen ← toInt (← vectorAt slicedVector (i + IDX_OF_SUBGROUP_LENGTH_BYTE))
  let parVals ← slice slicedVector ((i + IDX_OF_SUBGROUP_VALUES_START : Nat) : Int) parLen
  let vals ← toHexesInt parVals
  pure (parameters ++ [⟨parId, parLen, toHexes vals⟩],
    i + (parLen.toNat + OFFSET_FOR_IDX_OF_SUBGROUP_VALUES))

/-- The loop `while (idxOfSubgroupStart != slicedVector.size())` of `interpretBodyFrameXID`,
with a budget of `budget` iterations. The offset is an `unsigned int` in the loop and an
`int` in `addHdlcParametersAndReturnPosition`; it is a natural number here, because it never
leaves the range of either type: an offset that was advanced is at most the size of the
area (`addHdlcParameters_eq_ok`), and that size is a result of `toInt` (`toInt_range`). -/
def subgroupWalk : Nat → Strings → Nat → List HDLCParametersValues →
    Except Failure (List HDLCParametersValues)
  | 0, _, _, _ => .error .loopBudget
  | budget + 1, slicedVector, idxOfSubgroupStart, parameters =>
    if idxOfSubgroupStart = slicedVector.length then .ok parameters
    else
      match addHdlcParametersAndReturnPosition parameters slicedVector idxOfSubgroupStart with
      | .error e => .error e
      | .ok (parameters, next) => subgroupWalk budget slicedVector next parameters

/-- Model of `interpretBodyFrameI`. The arguments of the chained setters are evaluated left
to right, as C++17 orders them. The value byte is read unless the token of the first length
byte is the string `ZERO_STRING`. -/
def interpretBodyFrameI (receivedPlainFrame : Strings) : Except Failure FrameI := do
  let addressByte ← toHexInt (← vectorAt receivedPlainFrame IDX_OF_ADDR_BYTE)
  let controlByte ← toHexInt (← vectorAt receivedPlainFrame IDX_OF_CTRL_BYTE)
  let procedureCode ← toHexInt (← vectorAt receivedPlainFrame IDX_OF_PROC_BYTE)
  let fst ← vectorAt receivedPlainFrame IDX_OF_LENGTH_BYTE_FST_BIG_END
  let snd ← vectorAt receivedPlainFrame IDX_OF_LENGTH_BYTE_SND_BIG_END
  let parameterLength ← toHexesInt [fst, snd]
  let retFrame : FrameI := ⟨addressByte, controlByte, procedureCode, toHexes parameterLength, none⟩
  if ZERO_STRING ≠ (← vectorAt receivedPlainFrame IDX_OF_LENGTH_BYTE_FST_BIG_END) then
    let vals ← toHexesInt [← vectorAt receivedPlainFrame IDX_OF_VAL_BYTE]
    pure { retFrame with parameterValues := some (toHexes vals) }
  else
    pure retFrame

/-- Model of `interpretBodyFrameU`. -/
def interpretBodyFrameU (receivedPlainFrame : Strings) : Except Failure FrameU := do
  let addressByte ← toHexInt (← vectorAt receivedPlainFrame IDX_OF_ADDR_BYTE)
  let controlByte ← toHexInt (← vectorAt receivedPlainFrame IDX_OF_CTRL_BYTE)
  pure ⟨addressByte, controlByte⟩

/-- Model of `interpretBodyFrameXID`. The loop runs with a budget of one more iteration than
the parameter area has tokens; every iteration that succeeds advances the offset by at least
two, so the budget is never the reason the loop ends. -/
def interpretBodyFrameXID (receivedPlainFrame : Strings) : Except Failure FrameXID := do
  let addressByte ← toHexInt (← vectorAt receivedPlainFrame IDX_OF_ADDR_BYTE)
  let controlByte ← toHexInt (← vectorAt receivedPlainFrame IDX_OF_CTRL_BYTE)
  let formatIdentifierByte ← toHexInt (← vectorAt receivedPlainFrame IDX_OF_FORMAT_ID_BYTE)
  let groupIdentifierByte ← toHexInt (← vectorAt receivedPlainFrame IDX_OF_GROUP_ID_BYTE)
  let groupLengthByte ← toHexInt (← vectorAt receivedPlainFrame IDX_OF_GROUP_LENGTH_BYTE)
  let groupLength ← toInt (← vectorAt receivedPlainFrame IDX_OF_GROUP_LENGTH_BYTE)
  let slicedVector ← slice receivedPlainFrame (IDX_OF_HDLC_PARAMETERS_START : Nat) groupLength
  let parameters ← subgroupWalk (slicedVector.length + 1) slicedVector 0 []
  pure ⟨addressByte, controlByte, formatIdentifierByte, groupIdentifierByte, groupLengthByte,
    parameters⟩

/-- Model of `isFrameU`. -/
def isFrameU (codes : ByteControl) (ctrlByte : Nat) : Bool :=
  codes.SNRM = ctrlByte || codes.UA = ctrlByte

/-- Model of `isFrameI`. -/
def isFrameI (codes : ByteControl) (ctrlByte : Nat) : Bool :=
  codes.CALIBRATE_REQ = ctrlByte || codes.CALIBRATE_RES = ctrlByte

/-- Model of `HDLCFrameBodyInterpreter::apply` from the lexed input on: `none` is the null
pointer returned for a frame of unknown type. -/
def applyLexed (codes : ByteControl) (lexedInput : Strings) :
    Except Failure (Option HDLCFrameBody) := do
  let lexedInputWithoutFlagsAndCRC ← trimFlagsAndCRC lexedInput
  let ctrlByte ← toHexInt (← vectorAt lexedInputWithoutFlagsAndCRC IDX_OF_CTRL_BYTE)
  if codes.XID = ctrlByte then
    let f ← interpretBodyFrameXID lexedInputWithoutFlagsAndCRC
    pure (some (.frameXID f))
  else if isFrameU codes ctrlByte then
    let f ← interpretBodyFrameU lexedInputWithoutFlagsAndCRC
    pure (some (.frameU f))
  else if isFrameI codes ctrlByte then
    let f ← interpretBodyFrameI lexedInputWithoutFlagsAndCRC
    pure (some (.frameI f))
  else
    pure none

/-- Model of `HDLCFrameBodyInterpreter::apply`. The function `lex` of `Utils/Functions.hpp`
is outside `src/` and is a parameter. -/
def apply (lex : String → Strings) (codes : ByteControl) (receivedPlainFrame : String) :
    Except Failure (Option HDLCFrameBody) :=
  applyLexed codes (lex receivedPlainFrame)

/-! ## Concrete lexer and constants -/

/-- The tokens of `cs` between the separators `sep`; `cur` holds the characters of the token
being read, last first. -/
def splitChars (sep : Char) : List Char → List Char → Strings
  | [], cur => [String.mk cur.reverse]
  | c :: cs, cur =>
    if c = sep then String.mk cur.reverse :: splitChars sep cs []
    else splitChars sep cs (c :: cur)

/-- Modelled from the spec: the function `lex` of `Utils/Functions.hpp`, which is outside
`src/`. The spec: "Splits on a single-space delimiter into an ordered sequence of tokens." -/
def lexSpaces (receivedPlainFrame : String) : Strings :=
  splitChars ' ' receivedPlainFrame.data []

/-- Modelled from the spec: a table of control codes for concrete evaluation. The constants
are declared outside `src/`; the spec gives `SNRM = 0x93`, the other four values are those of
the HDLC and AISG standards and are not used by any general theorem. -/
def sampleCodes : ByteControl :=
  { XID := 0xBF, SNRM := 0x93, UA := 0x73, CALIBRATE_REQ := 0x10, CALIBRATE_RES := 0x30 }

/-! ## Vocabulary of the specification -/

/-- A token of exactly two hexadecimal digits, the spec's well-formed byte token. -/
def isHexByteToken (t : String) : Bool :=
  match t.data with
  | [a, b] => (hexDigitVal a).isSome && (hexDigitVal b).isSome
  | _ => false

/-- The byte a two-hex-digit token denotes: sixteen times the first digit plus the second. -/
def hexByteValue (t : String) : Nat :=
  match t.data with
  | [a, b] => 16 * (hexDigitVal a).getD 0 + (hexDigitVal b).getD 0
  | _ => 0

/-- The wire layout of a list of parameter groups `(id, values)`, as byte values: for each
group its id, the number of its values, then the values. -/
def serializeGroups : List (Nat × List Nat) → List Nat
  | [] => []
  | (parId, vals) :: groups => parId :: vals.length :: (vals ++ serializeGroups groups)

/-- The parameter group the decoder is expected to build for `(id, values)`. -/
def groupRecord (g : Nat × List Nat) : HDLCParametersValues :=
  ⟨g.1, (g.2.length : Int), g.2⟩

/-- The running subgroup offset, in the words of the spec: it starts at 0 and is advanced by
the subgroup length, the byte after the offset, plus 2. `true` when the offset lands exactly
on the length of the area; `false` when the length byte is missing, when the advanced offset
overshoots the length of the area, or when the budget of steps has run out. -/
def runningOffsetLands (area : List Nat) : Nat → Nat → Bool
  | 0, _ => false
  | budget + 1, offset =>
    if offset = area.length then true
    else
      match area[offset + 1]? with
      | none => false
      | some len =>
        if area.length < offset + (len + 2) then false
        else runningOffsetLands area budget (offset + (len + 2))

/-- Whether the parameter area, given by its bytes, is exactly partitionable into subgroups:
the running offset from 0 lands on the length of the area. Every step advances the offset
by at least 2, so a budget of one step more than the area has bytes is never used up. -/
def isPartitionable (area : List Nat) : Bool :=
  runningOffsetLands area (area.length + 1) 0

/-! ## Lemmas on tokens -/

theorem hexDigitVal_bounds {c : Char} {v : Nat} (h : hexDigitVal c = some v) :
    v < 16 ∧ 48 ≤ c.toNat ∧ c.toNat ≤ 102 := by
  unfold hexDigitVal at h
  split_ifs at h with h1 h2 h3 <;> simp at h <;> omega

theorem hexDigit_not_space {c : Char} {v : Nat} (h : hexDigitVal c = some v) :
    isSpaceChar c = false := by
  have hb := hexDigitVal_bounds h
  simp [isSpaceChar]
  omega

theorem hexDigit_ne_of_toNat {c d : Char} {v : Nat} (h : hexDigitVal c = some v)
    (hd : d.toNat < 48 ∨ 102 < d.toNat) : c ≠ d := by
  have hb := hexDigitVal_bounds h
  rintro rfl
  omega

theorem hexDigitsValue_pair {b : Char} {vb : Nat} (hb : hexDigitVal b = some vb) (acc : Nat)
    (seen : Bool) : hexDigitsValue [b] acc seen = (16 * acc + vb, true) := by
  simp [hexDigitsValue, hb]

theorem hexMagnitude_pair {a b : Char} {va vb : Nat} (ha : hexDigitVal a = some va)
    (hb : hexDigitVal b = some vb) : hexMagnitude [a, b] = some (16 * va + vb) := by
  have hx : b ≠ 'x' := hexDigit_ne_of_toNat hb (by decide)
  have hX : b ≠ 'X' := by
    rintro rfl
    simp [hexDigitVal] at hb
  by_cases h0 : a = '0'
  · subst h0
    have : va = 0 := by
      have : hexDigitVal '0' = some 0 := by decide
      rw [this] at ha
      exact (Option.some.inj ha).symm
    subst this
    simp [hexMagnitude, hx, hX, hexDigitsValue, hb]
  · simp [hexMagnitude, h0, hexDigitsValue, ha, hb]

theorem isHexByteToken_data {t : String} (h : isHexByteToken t = true) :
    ∃ a b va vb, t.data = [a, b] ∧ hexDigitVal a = some va ∧ hexDigitVal b = some vb ∧
      hexByteValue t = 16 * va + vb := by
  unfold isHexByteToken at h
  split at h
  · rename_i a b hd
    simp only [Bool.and_eq_true, Option.isSome_iff_exists] at h
    obtain ⟨⟨va, ha⟩, ⟨vb, hb⟩⟩ := h
    exact ⟨a, b, va, vb, hd, ha, hb, by simp [hexByteValue, hd, ha, hb]⟩
  · exact absurd h (by simp)

theorem hexByteValue_lt {t : String} (h : isHexByteToken t = true) : hexByteValue t < 256 := by
  obtain ⟨a, b, va, vb, _, ha, hb, hv⟩ := isHexByteToken_data h
  have := (hexDigitVal_bounds ha).1
  have := (hexDigitVal_bounds hb).1
  omega

theorem toHexInt_hexByte {t : String} (h : isHexByteToken t = true) :
    toHexInt t = .ok (hexByteValue t) := by
  obtain ⟨a, b, va, vb, hd, ha, hb, hv⟩ := isHexByteToken_data h
  have h1 := (hexDigitVal_bounds ha).1
  have h2 := (hexDigitVal_bounds hb).1
  have hm : a ≠ '-' := hexDigit_ne_of_toNat ha (by decide)
  have hp : a ≠ '+' := hexDigit_ne_of_toNat ha (by decide)
  have hlt : ¬ HEXINT_MAX < 16 * va + vb := by
    simp only [HEXINT_MAX]
    omega
  simp [toHexInt, hd, skipSpaces, hexDigit_not_space ha, takeSign, hm, hp,
    hexMagnitude_pair ha hb, hv, hlt]

theorem toInt_hexByte {t : String} (h : isHexByteToken t = true) :
    toInt t = .ok (hexByteValue t : Int) := by
  obtain ⟨a, b, va, vb, hd, ha, hb, hv⟩ := isHexByteToken_data h
  have h1 := (hexDigitVal_bounds ha).1
  have h2 := (hexDigitVal_bounds hb).1
  have hm : a ≠ '-' := hexDigit_ne_of_toNat ha (by decide)
  have hp : a ≠ '+' := hexDigit_ne_of_toNat ha (by decide)
  have hs : takeSign (skipSpaces t.data) = (false, [a, b]) := by
    simp [hd, skipSpaces, hexDigit_not_space ha, takeSign, hm, hp]
  have hr : ¬ (((16 * va + vb : Nat) : Int) < - 2 ^ 31 ∨
      2 ^ 31 - 1 < ((16 * va + vb : Nat) : Int)) := by
    omega
  simp only [toInt, hs, hexMagnitude_pair ha hb, hv]
  simp only [Bool.false_eq_true, if_false, hr]

theorem toInt_range {t : String} {v : Int} (h : toInt t = .ok v) :
    - 2 ^ 31 ≤ v ∧ v ≤ 2 ^ 31 - 1 := by
  unfold toInt at h
  simp only at h
  split at h
  · simp at h
  · split_ifs at h <;> simp only [Except.ok.injEq] at h <;> subst h <;> omega

/-! ## Lemmas on the containers -/

theorem vectorAt_eq_ok {v : Strings} {k : Nat} {t : String} (h : v[k]? = some t) :
    vectorAt v k = .ok t := by
  simp [vectorAt, h]

theorem vectorAt_eq_error {v : Strings} {k : Nat} (h : v.length ≤ k) :
    vectorAt v k = .error .outOfRange := by
  have : v[k]? = none := List.getElem?_eq_none h
  simp [vectorAt, this]

theorem vectorAt_ok_iff {v : Strings} {k : Nat} {t : String} :
    vectorAt v k = .ok t ↔ v[k]? = some t := by
  unfold vectorAt
  cases h : v[k]? <;> simp

theorem popBack_eq_take {l : Strings} (h : 1 ≤ l.length) :
    popBack l = .ok (l.take (l.length - 1)) := by
  cases l with
  | nil => simp at h
  | cons t rest => simp [popBack, List.dropLast_eq_take]

theorem trimFlagsAndCRC_eq {t : Strings} (h : 4 ≤ t.length) :
    trimFlagsAndCRC t = .ok ((t.drop 1).take (t.length - 4)) := by
  cases t with
  | nil => simp at h
  | cons a rest =>
    simp only [List.length_cons] at h
    have h1 : 1 ≤ rest.length := by omega
    have h2 : 1 ≤ (rest.take (rest.length - 1)).length := by
      rw [List.length_take]
      omega
    have h3 : 1 ≤ ((rest.take (rest.length - 1)).take
        ((rest.take (rest.length - 1)).length - 1)).length := by
      simp only [List.length_take]
      omega
    simp only [trimFlagsAndCRC, popFront, bind, Except.bind, popBack_eq_take h1,
      popBack_eq_take h2, popBack_eq_take h3]
    simp only [List.length_take, List.take_take, List.drop_succ_cons, List.drop_zero,
      List.length_cons]
    congr 2
    omega

theorem trimFlagsAndCRC_short {t : Strings} (h : t.length < 4) :
    trimFlagsAndCRC t = .error .undefinedBehaviour := by
  match t, h with
  | [], _ => rfl
  | [_], _ => rfl
  | [_, _], _ => rfl
  | [_, _, _], _ => rfl
  | _ :: _ :: _ :: _ :: _, h => simp at h; omega

/-! ## Lemmas on the dispatch -/

theorem interpretBodyFrameU_hexBytes {address control : String} {rest : Strings}
    (ha : isHexByteToken address = true) (hc : isHexByteToken control = true) :
    interpretBodyFrameU (address :: control :: rest)
      = .ok ⟨hexByteValue address, hexByteValue control⟩ := by
  simp [interpretBodyFrameU, vectorAt, toHexInt_hexByte ha, toHexInt_hexByte hc, bind,
    Except.bind, pure, Except.pure]

theorem applyLexed_uframe {codes : ByteControl} {lexedInput : Strings}
    {address control : String} {rest : Strings}
    (htrim : trimFlagsAndCRC lexedInput = .ok (address :: control :: rest))
    (ha : isHexByteToken address = true) (hc : isHexByteToken control = true)
    (hu : hexByteValue control = codes.SNRM ∨ hexByteValue control = codes.UA)
    (hx : hexByteValue control ≠ codes.XID) :
    applyLexed codes lexedInput
      = .ok (some (.frameU ⟨hexByteValue address, hexByteValue control⟩)) := by
  have hx2 : ¬ codes.XID = hexByteValue control := fun h => hx h.symm
  have hu2 : isFrameU codes (hexByteValue control) = true := by
    simp only [isFrameU, Bool.or_eq_true, decide_eq_true_eq]
    rcases hu with h | h
    · exact Or.inl h.symm
    · exact Or.inr h.symm
  simp [applyLexed, htrim, vectorAt, toHexInt_hexByte hc, bind, Except.bind, pure, Except.pure,
    hx2, hu2, interpretBodyFrameU_hexBytes ha hc]

theorem narrowToHex_hexByte {t : String} (h : isHexByteToken t = true) :
    narrowToHex (hexByteValue t) = hexByteValue t :=
  Nat.mod_eq_of_lt (hexByteValue_lt h)

theorem zeroString_not_hexByte {t : String} (h : isHexByteToken t = true) : ZERO_STRING ≠ t := by
  obtain ⟨a, b, _, _, hd, _⟩ := isHexByteToken_data h
  intro h0
  rw [← h0] at hd
  simp at hd

theorem interpretBodyFrameI_hexBytes {t0 t1 t2 t3 t4 t5 : String} {rest : Strings}
    (h0 : isHexByteToken t0 = true) (h1 : isHexByteToken t1 = true)
    (h2 : isHexByteToken t2 = true) (h3 : isHexByteToken t3 = true)
    (h4 : isHexByteToken t4 = true) (h5 : isHexByteToken t5 = true) :
    interpretBodyFrameI (t0 :: t1 :: t2 :: t3 :: t4 :: t5 :: rest)
      = .ok ⟨hexByteValue t0, hexByteValue t1, hexByteValue t2,
          [hexByteValue t3, hexByteValue t4], some [hexByteValue t5]⟩ := by
  have hz : ¬ ZERO_STRING = t3 := zeroString_not_hexByte h3
  simp [interpretBodyFrameI, vectorAt, toHexesInt, toHexes, toHexInt_hexByte h0,
    toHexInt_hexByte h1, toHexInt_hexByte h2, toHexInt_hexByte h3, toHexInt_hexByte h4,
    toHexInt_hexByte h5, narrowToHex_hexByte h3, narrowToHex_hexByte h4,
    narrowToHex_hexByte h5, bind, Except.bind, pure, Except.pure, hz]

theorem interpretBodyFrameI_zeroString {t0 t1 t2 t4 : String} {rest : Strings}
    (h0 : isHexByteToken t0 = true) (h1 : isHexByteToken t1 = true)
    (h2 : isHexByteToken t2 = true) (h4 : isHexByteToken t4 = true) :
    interpretBodyFrameI (t0 :: t1 :: t2 :: "0" :: t4 :: rest)
      = .ok ⟨hexByteValue t0, hexByteValue t1, hexByteValue t2, [0, hexByteValue t4], none⟩ := by
  have hz : toHexInt "0" = .ok 0 := by decide
  have h0z : narrowToHex 0 = 0 := rfl
  simp [interpretBodyFrameI, vectorAt, toHexesInt, toHexes, toHexInt_hexByte h0,
    toHexInt_hexByte h1, toHexInt_hexByte h2, toHexInt_hexByte h4, narrowToHex_hexByte h4,
    bind, Except.bind, pure, Except.pure, hz, h0z]

theorem applyLexed_iframe {codes : ByteControl} {lexedInput payload : Strings}
    {control : String} {f : FrameI}
    (htrim : trimFlagsAndCRC lexedInput = .ok payload)
    (hctrl : payload[1]? = some control) (hc : isHexByteToken control = true)
    (hi : hexByteValue control = codes.CALIBRATE_REQ ∨
      hexByteValue control = codes.CALIBRATE_RES)
    (hx : hexByteValue control ≠ codes.XID)
    (hs : hexByteValue control ≠ codes.SNRM) (hu : hexByteValue control ≠ codes.UA)
    (hf : interpretBodyFrameI payload = .ok f) :
    applyLexed codes lexedInput = .ok (some (.frameI f)) := by
  have hx2 : ¬ codes.XID = hexByteValue control := fun h => hx h.symm
  have hu2 : isFrameU codes (hexByteValue control) = false := by
    simp only [isFrameU, Bool.or_eq_false_iff, decide_eq_false_iff_not]
    exact ⟨fun h => hs h.symm, fun h => hu h.symm⟩
  have hi2 : isFrameI codes (hexByteValue control) = true := by
    simp only [isFrameI, Bool.or_eq_true, decide_eq_true_eq]
    rcases hi with h | h
    · exact Or.inl h.symm
    · exact Or.inr h.symm
  simp [applyLexed, htrim, vectorAt_eq_ok hctrl, toHexInt_hexByte hc, bind, Except.bind, pure,
    Except.pure, hx2, hu2, hi2, hf]

/-! ## Lemmas on the XID decoder -/

theorem bind_eq_ok {α β : Type} {x : Except Failure α} {f : α → Except Failure β} {b : β}
    (h : (x >>= f) = .ok b) : ∃ a, x = .ok a ∧ f a = .ok b := by
  cases x with
  | error e => simp [bind, Except.bind] at h
  | ok a => exact ⟨a, rfl, h⟩

theorem slice_eq_ok {inVec r : Strings} {idxOfStart length : Int}
    (h : slice inVec idxOfStart length = .ok r) :
    0 ≤ idxOfStart ∧ 0 ≤ length ∧ idxOfStart + length ≤ (inVec.length : Int) ∧
      r = (inVec.drop idxOfStart.toNat).take length.toNat ∧ r.length = length.toNat := by
  unfold slice at h
  split_ifs at h with hc
  simp only [Except.ok.injEq] at h
  subst h
  refine ⟨by omega, by omega, by omega, rfl, ?_⟩
  simp only [List.length_take, List.length_drop]
  omega

theorem toHexesInt_length {ts : Strings} {vs : List Nat} (h : toHexesInt ts = .ok vs) :
    vs.length = ts.length := by
  induction ts generalizing vs with
  | nil =>
    simp only [toHexesInt, Except.ok.injEq] at h
    subst h
    rfl
  | cons t ts ih =>
    simp only [toHexesInt] at h
    obtain ⟨v, _, h⟩ := bind_eq_ok h
    obtain ⟨rest, hrest, h⟩ := bind_eq_ok h
    simp only [pure, Except.pure, Except.ok.injEq] at h
    subst h
    simp [ih hrest]

theorem addHdlcParameters_eq_ok {parameters out : List HDLCParametersValues}
    {slicedVector : Strings} {i next : Nat}
    (h : addHdlcParametersAndReturnPosition parameters slicedVector i = .ok (out, next)) :
    ∃ p : HDLCParametersValues, out = parameters ++ [p] ∧ 0 ≤ p.parLen ∧
      (p.parVals.length : Int) = p.parLen ∧ next = i + (p.parLen.toNat + 2) ∧
      next ≤ slicedVector.length := by
  simp only [addHdlcParametersAndReturnPosition, IDX_OF_SUBGROUP_PAR_ID,
    IDX_OF_SUBGROUP_LENGTH_BYTE, IDX_OF_SUBGROUP_VALUES_START,
    OFFSET_FOR_IDX_OF_SUBGROUP_VALUES] at h
  obtain ⟨tid, _, h⟩ := bind_eq_ok h
  obtain ⟨parId, _, h⟩ := bind_eq_ok h
  obtain ⟨tlen, _, h⟩ := bind_eq_ok h
  obtain ⟨parLen, _, h⟩ := bind_eq_ok h
  obtain ⟨parVals, hslice, h⟩ := bind_eq_ok h
  obtain ⟨vals, hvals, h⟩ := bind_eq_ok h
  simp only [pure, Except.pure, Except.ok.injEq, Prod.mk.injEq] at h
  obtain ⟨hout, hnext⟩ := h
  obtain ⟨_, hlen, hfit, _, hsz⟩ := slice_eq_ok hslice
  refine ⟨⟨parId, parLen, toHexes vals⟩, hout.symm, hlen, ?_, hnext.symm, ?_⟩
  · simp only [toHexes, List.length_map, toHexesInt_length hvals, hsz]
    omega
  · omega

/-- What a successful run of the loop has appended: groups whose declared lengths are not
negative and equal the number of their values, and whose sizes add up to the rest of the
parameter area. -/
theorem subgroupWalk_eq_ok {budget : Nat} {slicedVector : Strings} {i : Nat}
    {parameters out : List HDLCParametersValues}
    (h : subgroupWalk budget slicedVector i parameters = .ok out) :
    ∃ added : List HDLCParametersValues, out = parameters ++ added ∧
      (∀ p ∈ added, 0 ≤ p.parLen ∧ (p.parVals.length : Int) = p.parLen) ∧
      i + (added.map (fun p => p.parLen.toNat + 2)).sum = slicedVector.length := by
  induction budget generalizing i parameters with
  | zero => simp [subgroupWalk] at h
  | succ budget ih =>
    simp only [subgroupWalk] at h
    split_ifs at h with hi
    · simp only [Except.ok.injEq] at h
      exact ⟨[], by simp [h], by simp, by simpa using hi⟩
    · split at h
      · simp at h
      · rename_i ps next hadd
        obtain ⟨p, hps, hp0, hpl, hnext, _⟩ := addHdlcParameters_eq_ok hadd
        obtain ⟨added, hout, hall, hsum⟩ := ih h
        refine ⟨p :: added, ?_, ?_, ?_⟩
        · rw [hout, hps, List.append_assoc, List.singleton_append]
        · intro q hq
          rcases List.mem_cons.mp hq with rfl | hq
          · exact ⟨hp0, hpl⟩
          · exact hall q hq
        · simp only [List.map_cons, List.sum_cons]
          omega

theorem interpretBodyFrameXID_eq_ok {receivedPlainFrame : Strings} {f : FrameXID}
    (h : interpretBodyFrameXID receivedPlainFrame = .ok f) :
    ∃ (t : String) (groupLength : Int) (slicedVector : Strings),
      receivedPlainFrame[4]? = some t ∧ toInt t = .ok groupLength ∧
      slice receivedPlainFrame 5 groupLength = .ok slicedVector ∧
      subgroupWalk (slicedVector.length + 1) slicedVector 0 [] = .ok f.parameters := by
  simp only [interpretBodyFrameXID] at h
  obtain ⟨_, _, h⟩ := bind_eq_ok h
  obtain ⟨_, _, h⟩ := bind_eq_ok h
  obtain ⟨_, _, h⟩ := bind_eq_ok h
  obtain ⟨_, _, h⟩ := bind_eq_ok h
  obtain ⟨_, _, h⟩ := bind_eq_ok h
  obtain ⟨_, _, h⟩ := bind_eq_ok h
  obtain ⟨_, _, h⟩ := bind_eq_ok h
  obtain ⟨_, _, h⟩ := bind_eq_ok h
  obtain ⟨_, _, h⟩ := bind_eq_ok h
  obtain ⟨_, _, h⟩ := bind_eq_ok h
  obtain ⟨t, ht, h⟩ := bind_eq_ok h
  obtain ⟨groupLength, hgl, h⟩ := bind_eq_ok h
  obtain ⟨slicedVector, hslice, h⟩ := bind_eq_ok h
  obtain ⟨parameters, hwalk, h⟩ := bind_eq_ok h
  simp only [pure, Except.pure, Except.ok.injEq] at h
  subst h
  exact ⟨t, groupLength, slicedVector, vectorAt_ok_iff.mp ht, hgl, hslice, hwalk⟩

theorem sum_declared_lengths {l : List HDLCParametersValues}
    (h : ∀ p ∈ l, 0 ≤ p.parLen ∧ (p.parVals.length : Int) = p.parLen) :
    (l.map (fun p => p.parLen + 2)).sum
      = (((l.map (fun p => p.parLen.toNat + 2)).sum : Nat) : Int) := by
  induction l with
  | nil => rfl
  | cons p l ih =>
    have hp := (h p (List.mem_cons_self p l)).1
    have ih := ih (fun q hq => h q (List.mem_cons_of_mem p hq))
    simp only [List.map_cons, List.sum_cons, ih, Nat.cast_add]
    omega

/-! ## The loop budget is never the reason the loop ends -/

theorem bind_ne_loopBudget {α β : Type} {x : Except Failure α} {f : α → Except Failure β}
    (hx : x ≠ .error .loopBudget) (hf : ∀ a, f a ≠ .error .loopBudget) :
    (x >>= f) ≠ .error .loopBudget := by
  cases x with
  | error e =>
    intro h
    simp only [bind, Except.bind, Except.error.injEq] at h
    exact hx (by rw [h])
  | ok a => exact hf a

theorem vectorAt_ne_loopBudget (v : Strings) (k : Nat) :
    vectorAt v k ≠ .error .loopBudget := by
  unfold vectorAt
  split <;> simp

theorem toHexInt_ne_loopBudget (t : String) : toHexInt t ≠ .error .loopBudget := by
  unfold toHexInt
  split
  · simp
  · simp only
    split_ifs <;> simp

theorem toInt_ne_loopBudget (t : String) : toInt t ≠ .error .loopBudget := by
  unfold toInt
  simp only
  split
  · simp
  · split_ifs <;> simp

theorem slice_ne_loopBudget (v : Strings) (a b : Int) : slice v a b ≠ .error .loopBudget := by
  unfold slice
  split_ifs <;> simp

theorem toHexesInt_ne_loopBudget (ts : Strings) : toHexesInt ts ≠ .error .loopBudget := by
  induction ts with
  | nil => simp [toHexesInt]
  | cons t ts ih =>
    simp only [toHexesInt]
    refine bind_ne_loopBudget (toHexInt_ne_loopBudget t) (fun _ => ?_)
    refine bind_ne_loopBudget ih (fun _ => ?_)
    simp [pure, Except.pure]

theorem addHdlcParameters_ne_loopBudget (parameters : List HDLCParametersValues)
    (slicedVector : Strings) (i : Nat) :
    addHdlcParametersAndReturnPosition parameters slicedVector i ≠ .error .loopBudget := by
  simp only [addHdlcParametersAndReturnPosition]
  refine bind_ne_loopBudget (vectorAt_ne_loopBudget _ _) (fun _ => ?_)
  refine bind_ne_loopBudget (toHexInt_ne_loopBudget _) (fun _ => ?_)
  refine bind_ne_loopBudget (vectorAt_ne_loopBudget _ _) (fun _ => ?_)
  refine bind_ne_loopBudget (toInt_ne_loopBudget _) (fun _ => ?_)
  refine bind_ne_loopBudget (slice_ne_loopBudget _ _ _) (fun _ => ?_)
  refine bind_ne_loopBudget (toHexesInt_ne_loopBudget _) (fun _ => ?_)
  simp [pure, Except.pure]

/-- A budget larger than the number of tokens left is never used up: every iteration that
succeeds moves the offset forward by at least two and not beyond the end of the area. -/
theorem subgroupWalk_budget_suffices (budget : Nat) (slicedVector : Strings) (i : Nat)
    (parameters : List HDLCParametersValues) (hi : i ≤ slicedVector.length)
    (hb : slicedVector.length - i < budget) :
    subgroupWalk budget slicedVector i parameters ≠ .error .loopBudget := by
  induction budget generalizing i parameters with
  | zero => omega
  | succ budget ih =>
    simp only [subgroupWalk]
    split_ifs with hend
    · simp
    · split
      · rename_i e hadd
        intro h
        simp only [Except.error.injEq] at h
        exact addHdlcParameters_ne_loopBudget _ _ _ (h ▸ hadd)
      · rename_i ps next hadd
        obtain ⟨p, _, _, _, hnext, hfit⟩ := addHdlcParameters_eq_ok hadd
        exact ih next ps hfit (by omega)

theorem interpretBodyFrameXID_ne_loopBudget (receivedPlainFrame : Strings) :
    interpretBodyFrameXID receivedPlainFrame ≠ .error .loopBudget := by
  simp only [interpretBodyFrameXID]
  refine bind_ne_loopBudget (vectorAt_ne_loopBudget _ _) (fun _ => ?_)
  refine bind_ne_loopBudget (toHexInt_ne_loopBudget _) (fun _ => ?_)
  refine bind_ne_loopBudget (vectorAt_ne_loopBudget _ _) (fun _ => ?_)
  refine bind_ne_loopBudget (toHexInt_ne_loopBudget _) (fun _ => ?_)
  refine bind_ne_loopBudget (vectorAt_ne_loopBudget _ _) (fun _ => ?_)
  refine bind_ne_loopBudget (toHexInt_ne_loopBudget _) (fun _ => ?_)
  refine bind_ne_loopBudget (vectorAt_ne_loopBudget _ _) (fun _ => ?_)
  refine bind_ne_loopBudget (toHexInt_ne_loopBudget _) (fun _ => ?_)
  refine bind_ne_loopBudget (vectorAt_ne_loopBudget _ _) (fun _ => ?_)
  refine bind_ne_loopBudget (toHexInt_ne_loopBudget _) (fun _ => ?_)
  refine bind_ne_loopBudget (vectorAt_ne_loopBudget _ _) (fun _ => ?_)
  refine bind_ne_loopBudget (toInt_ne_loopBudget _) (fun _ => ?_)
  refine bind_ne_loopBudget (slice_ne_loopBudget _ _ _) (fun sv => ?_)
  refine bind_ne_loopBudget
    (subgroupWalk_budget_suffices _ sv 0 [] (Nat.zero_le _) (by omega)) (fun _ => ?_)
  simp [pure, Except.pure]

/-! ## Decoding a serialized parameter area -/

theorem toHexesInt_hexBytes {ts : Strings} (h : ∀ t ∈ ts, isHexByteToken t = true) :
    toHexesInt ts = .ok (ts.map hexByteValue) := by
  induction ts with
  | nil => rfl
  | cons t ts ih =>
    have ht := h t (List.mem_cons_self t ts)
    have ih := ih (fun u hu => h u (List.mem_cons_of_mem t hu))
    simp [toHexesInt, toHexInt_hexByte ht, ih, bind, Except.bind, pure, Except.pure]

theorem toHexes_hexBytes {ts : Strings} (h : ∀ t ∈ ts, isHexByteToken t = true) :
    toHexes (ts.map hexByteValue) = ts.map hexByteValue := by
  induction ts with
  | nil => rfl
  | cons t ts ih =>
    have ht := h t (List.mem_cons_self t ts)
    have ih := ih (fun u hu => h u (List.mem_cons_of_mem t hu))
    simp only [toHexes, List.map_cons, List.map_map] at ih ⊢
    rw [ih, narrowToHex_hexByte ht]

theorem serializeGroups_length (groups : List (Nat × List Nat)) :
    (serializeGroups groups).length = (groups.map (fun g => g.2.length + 2)).sum := by
  induction groups with
  | nil => rfl
  | cons g groups ih =>
    obtain ⟨parId, vals⟩ := g
    simp only [serializeGroups, List.length_cons, List.length_append, ih, List.map_cons,
      List.sum_cons]
    omega

/-- One subgroup that lies in the area as the wire layout says is decoded to its record. -/
theorem addHdlcParameters_wellFormed (parameters : List HDLCParametersValues)
    (before : Strings) (tid tlen : String) (tvals after : Strings)
    (hid : isHexByteToken tid = true) (hlen : isHexByteToken tlen = true)
    (hvals : ∀ t ∈ tvals, isHexByteToken t = true)
    (hl : hexByteValue tlen = tvals.length) :
    addHdlcParametersAndReturnPosition parameters
        (before ++ tid :: tlen :: (tvals ++ after)) before.length
      = .ok (parameters ++ [⟨hexByteValue tid, (tvals.length : Int), tvals.map hexByteValue⟩],
          before.length + (tvals.length + 2)) := by
  have h1 : vectorAt (before ++ tid :: tlen :: (tvals ++ after)) (before.length + 0)
      = .ok tid := by
    apply vectorAt_eq_ok
    rw [Nat.add_zero, List.getElem?_append_right (Nat.le_refl _)]
    simp
  have h2 : vectorAt (before ++ tid :: tlen :: (tvals ++ after)) (before.length + 1)
      = .ok tlen := by
    apply vectorAt_eq_ok
    rw [List.getElem?_append_right (by omega)]
    simp
  have h3 : slice (before ++ tid :: tlen :: (tvals ++ after))
      ((before.length + 2 : Nat) : Int) (tvals.length : Int) = .ok tvals := by
    unfold slice
    have hc : ¬ (((before.length + 2 : Nat) : Int) < 0 ∨ ((tvals.length : Nat) : Int) < 0 ∨
        (((before ++ tid :: tlen :: (tvals ++ after)).length : Nat) : Int)
          < ((before.length + 2 : Nat) : Int) + ((tvals.length : Nat) : Int)) := by
      simp only [List.length_append, List.length_cons]
      omega
    rw [if_neg hc]
    congr 1
    have hd : (before ++ tid :: tlen :: (tvals ++ after)).drop (before.length + 2)
        = tvals ++ after := by
      rw [List.drop_append_eq_append_drop]
      simp
    simp only [Int.toNat_ofNat, hd]
    simp
  simp only [addHdlcParametersAndReturnPosition, IDX_OF_SUBGROUP_PAR_ID,
    IDX_OF_SUBGROUP_LENGTH_BYTE, IDX_OF_SUBGROUP_VALUES_START,
    OFFSET_FOR_IDX_OF_SUBGROUP_VALUES, h1, h2, bind, Except.bind, toHexInt_hexByte hid,
    toInt_hexByte hlen, hl, h3, toHexesInt_hexBytes hvals, toHexes_hexBytes hvals, pure,
    Except.pure, Int.toNat_ofNat]

/-- The loop decodes a serialized list of groups to the records of the groups, in order. -/
theorem subgroupWalk_wellFormed (groups : List (Nat × List Nat)) (budget : Nat)
    (before rest : Strings) (parameters : List HDLCParametersValues)
    (hrest : ∀ t ∈ rest, isHexByteToken t = true)
    (hlayout : rest.map hexByteValue = serializeGroups groups)
    (hb : groups.length < budget) :
    subgroupWalk budget (before ++ rest) before.length parameters
      = .ok (parameters ++ groups.map groupRecord) := by
  induction groups generalizing budget before rest parameters with
  | nil =>
    have hnil : rest = [] := by simpa [serializeGroups] using hlayout
    subst hnil
    obtain ⟨b, rfl⟩ : ∃ b, budget = b + 1 := ⟨budget - 1, by omega⟩
    simp [subgroupWalk]
  | cons g groups ih =>
    obtain ⟨parId, vals⟩ := g
    obtain ⟨b, rfl⟩ : ∃ b, budget = b + 1 := ⟨budget - 1, by omega⟩
    simp only [serializeGroups] at hlayout
    match rest, hrest, hlayout with
    | tid :: tlen :: rest2, hrest, hlayout =>
      simp only [List.map_cons, List.cons.injEq] at hlayout
      obtain ⟨hid, hlen, hrest2⟩ := hlayout
      obtain ⟨tvals, after, hsplit, hvals, hafter⟩ := List.map_eq_append_iff.mp hrest2
      subst hsplit
      have hvl : tvals.length = vals.length := by rw [← hvals, List.length_map]
      have htid := hrest tid (by simp)
      have htlen := hrest tlen (by simp)
      have htvals : ∀ t ∈ tvals, isHexByteToken t = true := fun t ht => hrest t (by simp [ht])
      have hafterTok : ∀ t ∈ after, isHexByteToken t = true := fun t ht =>
        hrest t (by simp [ht])
      have hstep := addHdlcParameters_wellFormed parameters before tid tlen tvals after htid
        htlen htvals (by rw [hlen, hvl])
      have hne : ¬ before.length = (before ++ tid :: tlen :: (tvals ++ after)).length := by
        simp only [List.length_append, List.length_cons]
        omega
      have hnext := ih b (before ++ tid :: tlen :: tvals) after
        (parameters ++ [⟨hexByteValue tid, (tvals.length : Int), tvals.map hexByteValue⟩])
        hafterTok hafter (by simpa using hb)
      have hlist : (before ++ tid :: tlen :: tvals) ++ after
          = before ++ tid :: tlen :: (tvals ++ after) := by simp
      have hlength : (before ++ tid :: tlen :: tvals).length
          = before.length + (tvals.length + 2) := by
        simp only [List.length_append, List.length_cons]
      rw [hlist, hlength] at hnext
      simp only [subgroupWalk, if_neg hne, hstep]
      rw [hnext]
      simp [groupRecord, hid, hvals, hvl]

/-! ## Theorems on the dispatch and on trimming -/

/-- C1: when the trimmed payload has a token at index 1 (so at least two tokens) and that
token decodes to a value that is none of the five known control codes, `apply` returns the
null pointer, without failure, whatever the other payload tokens are. -/
theorem apply_unknown_control_is_absent (lex : String → Strings) (codes : ByteControl)
    (receivedPlainFrame : String) (payload : Strings) (ctrlToken : String) (ctrlByte : Nat)
    (htrim : trimFlagsAndCRC (lex receivedPlainFrame) = .ok payload)
    (htoken : payload[1]? = some ctrlToken)
    (hdecode : toHexInt ctrlToken = .ok ctrlByte)
    (hxid : ctrlByte ≠ codes.XID)
    (hsnrm : ctrlByte ≠ codes.SNRM) (hua : ctrlByte ≠ codes.UA)
    (hreq : ctrlByte ≠ codes.CALIBRATE_REQ) (hres : ctrlByte ≠ codes.CALIBRATE_RES) :
    apply lex codes receivedPlainFrame = .ok none := by
  have h1 : ¬ codes.XID = ctrlByte := fun h => hxid h.symm
  have h2 : isFrameU codes ctrlByte = false := by
    simp only [isFrameU, Bool.or_eq_false_iff, decide_eq_false_iff_not]
    exact ⟨fun h => hsnrm h.symm, fun h => hua h.symm⟩
  have h3 : isFrameI codes ctrlByte = false := by
    simp only [isFrameI, Bool.or_eq_false_iff, decide_eq_false_iff_not]
    exact ⟨fun h => hreq h.symm, fun h => hres h.symm⟩
  simp [apply, applyLexed, htrim, vectorAt_eq_ok htoken, hdecode, bind, Except.bind, pure,
    Except.pure, h1, h2, h3]

/-- Witness of C1: the control byte `55` is none of the sample codes. -/
theorem apply_unknown_control_is_absent_witness :
    apply lexSpaces sampleCodes "7E A0 55 01 00 7E" = .ok none :=
  apply_unknown_control_is_absent lexSpaces sampleCodes "7E A0 55 01 00 7E" ["A0", "55"] "55"
    0x55 (by decide) (by decide) (by decide) (by decide) (by decide) (by decide) (by decide)
    (by decide)

/-- C2: when the trimmed payload starts with two two-hex-digit tokens and the second one
denotes a U-frame control code (SNRM or UA) that is not the XID code, `apply` returns the
U-frame record whose address is the byte of token 0 and whose control is the byte of token 1.
The record is a function of these two tokens alone: the tokens `rest` after index 1 do not
occur in it. -/
theorem apply_uframe_address_and_control (lex : String → Strings) (codes : ByteControl)
    (receivedPlainFrame : String) (address control : String) (rest : Strings)
    (htrim : trimFlagsAndCRC (lex receivedPlainFrame) = .ok (address :: control :: rest))
    (ha : isHexByteToken address = true) (hc : isHexByteToken control = true)
    (hu : hexByteValue control = codes.SNRM ∨ hexByteValue control = codes.UA)
    (hx : hexByteValue control ≠ codes.XID) :
    apply lex codes receivedPlainFrame
      = .ok (some (.frameU ⟨hexByteValue address, hexByteValue control⟩)) :=
  applyLexed_uframe htrim ha hc hu hx

/-- Witness of C2, the spec's example: `7E A0 93 01 00 7E` gives address `0xA0` and control
`0x93`. -/
theorem apply_uframe_address_and_control_witness :
    apply lexSpaces sampleCodes "7E A0 93 01 00 7E" = .ok (some (.frameU ⟨0xA0, 0x93⟩)) :=
  apply_uframe_address_and_control lexSpaces sampleCodes "7E A0 93 01 00 7E" "A0" "93" []
    (by decide) (by decide) (by decide) (by decide) (by decide)

/-- C7: for a token sequence of length `n ≥ 4`, `trimFlagsAndCRC` returns a sequence of
length `n - 4` whose element `i` is element `i + 1` of the input, whatever the tokens are. -/
theorem trimFlagsAndCRC_drops_one_and_three (t : Strings) (h : 4 ≤ t.length) :
    ∃ r, trimFlagsAndCRC t = .ok r ∧ r.length = t.length - 4 ∧
      ∀ i, i < t.length - 4 → r[i]? = t[i + 1]? := by
  refine ⟨_, trimFlagsAndCRC_eq h, ?_, ?_⟩
  · simp only [List.length_take, List.length_drop]
    omega
  · intro i hi
    rw [List.getElem?_take_of_lt hi, List.getElem?_drop, Nat.add_comm]

/-- Witness of C7 on a six-token frame. -/
theorem trimFlagsAndCRC_drops_one_and_three_witness :
    ∃ r, trimFlagsAndCRC ["7E", "A0", "93", "01", "00", "7E"] = .ok r ∧ r.length = 6 - 4 ∧
      ∀ i, i < 6 - 4 → r[i]? = ["7E", "A0", "93", "01", "00", "7E"][i + 1]? :=
  trimFlagsAndCRC_drops_one_and_three ["7E", "A0", "93", "01", "00", "7E"] (by decide)

/-- Counterexample to C5: with the first length-field token `00` the decoder still reads the
value byte at index 5, because `00` is not the string `ZERO_STRING`. A well-formed I-frame
with a zero length and five payload tokens fails with `std::out_of_range`, in
`interpretBodyFrameI` and in `apply`; with a sixth payload token the record carries that
token as a value byte. -/
theorem interpretBodyFrameI_double_zero_reads_value :
    interpretBodyFrameI ["03", "10", "31", "00", "00"] = .error .outOfRange ∧
    apply lexSpaces sampleCodes "7E 03 10 31 00 00 AB CD 7E" = .error .outOfRange ∧
    interpretBodyFrameI ["03", "10", "31", "00", "00", "2A"]
      = .ok ⟨0x03, 0x10, 0x31, [0, 0], some [0x2A]⟩ := by
  decide

/-- C5, amended: when the trimmed payload has at least five tokens, those at indices 0, 1, 2
and 4 are two-hex-digit tokens, the control byte is an I-frame control code (and none of the
XID and U-frame codes) and the first length-field token (index 3) is the string `0`, the
constant `ZERO_STRING` of the code, `apply` succeeds and the I-frame record has no
parameter-value bytes attached. -/
theorem apply_iframe_zero_string_has_no_values (lex : String → Strings) (codes : ByteControl)
    (receivedPlainFrame : String) (t0 t1 t2 t4 : String) (rest : Strings)
    (htrim : trimFlagsAndCRC (lex receivedPlainFrame)
      = .ok (t0 :: t1 :: t2 :: ZERO_STRING :: t4 :: rest))
    (h0 : isHexByteToken t0 = true) (h1 : isHexByteToken t1 = true)
    (h2 : isHexByteToken t2 = true) (h4 : isHexByteToken t4 = true)
    (hi : hexByteValue t1 = codes.CALIBRATE_REQ ∨ hexByteValue t1 = codes.CALIBRATE_RES)
    (hx : hexByteValue t1 ≠ codes.XID)
    (hs : hexByteValue t1 ≠ codes.SNRM) (hu : hexByteValue t1 ≠ codes.UA) :
    apply lex codes receivedPlainFrame
      = .ok (some (.frameI ⟨hexByteValue t0, hexByteValue t1, hexByteValue t2,
          [0, hexByteValue t4], none⟩)) :=
  applyLexed_iframe htrim rfl h1 hi hx hs hu (interpretBodyFrameI_zeroString h0 h1 h2 h4)

/-- Witness of the amended C5. -/
theorem apply_iframe_zero_string_has_no_values_witness :
    apply lexSpaces sampleCodes "7E 03 10 31 0 00 AB CD 7E"
      = .ok (some (.frameI ⟨0x03, 0x10, 0x31, [0, 0], none⟩)) :=
  apply_iframe_zero_string_has_no_values lexSpaces sampleCodes "7E 03 10 31 0 00 AB CD 7E"
    "03" "10" "31" "00" [] (by decide) (by decide) (by decide) (by decide) (by decide)
    (by decide) (by decide) (by decide) (by decide)

/-- C6: for a payload of at least six tokens whose first six are two-hex-digit tokens,
`interpretBodyFrameI` succeeds and attaches a parameter-value sequence of exactly one
element, the byte of the token at index 5, whatever the two length-field tokens encode and
whatever tokens follow index 5. A two-hex-digit token at index 3 is never `ZERO_STRING`, so
this holds in particular when that token is not `00`. -/
theorem interpretBodyFrameI_attaches_one_value (t0 t1 t2 t3 t4 t5 : String) (rest : Strings)
    (h0 : isHexByteToken t0 = true) (h1 : isHexByteToken t1 = true)
    (h2 : isHexByteToken t2 = true) (h3 : isHexByteToken t3 = true)
    (h4 : isHexByteToken t4 = true) (h5 : isHexByteToken t5 = true) :
    ∃ f, interpretBodyFrameI (t0 :: t1 :: t2 :: t3 :: t4 :: t5 :: rest) = .ok f ∧
      f.parameterValues = some [hexByteValue t5] :=
  ⟨_, interpretBodyFrameI_hexBytes h0 h1 h2 h3 h4 h5, rfl⟩

/-- Witness of C6: the declared length is `0x0102`, one value byte is attached. -/
theorem interpretBodyFrameI_attaches_one_value_witness :
    ∃ f, interpretBodyFrameI ["03", "10", "31", "01", "02", "2A", "2B", "2C"] = .ok f ∧
      f.parameterValues = some [hexByteValue "2A"] :=
  interpretBodyFrameI_attaches_one_value "03" "10" "31" "01" "02" "2A" ["2B", "2C"]
    (by decide) (by decide) (by decide) (by decide) (by decide) (by decide)

/-! ## Theorems on the shortest input -/

/-- Counterexample to C8: an input of exactly four tokens trims to an empty payload, so the
read of the control byte at payload index 1 throws `std::out_of_range`; no U-frame record is
returned, wherever the U-frame control byte `93` stands among the four tokens. -/
theorem apply_four_tokens_fails :
    apply lexSpaces sampleCodes "7E 93 00 7E" = .error .outOfRange ∧
    apply lexSpaces sampleCodes "A0 93 01 00" = .error .outOfRange ∧
    apply lexSpaces sampleCodes "93 93 93 93" = .error .outOfRange := by
  decide

/-- C8, amended: for every input of exactly six tokens (flag, address, control, two CRC
bytes, flag: the shortest input that carries a control byte) whose address and control
tokens are two-hex-digit tokens and whose control byte is a U-frame control code and not the
XID code, `apply` trims it and decodes it into the U-frame record; every input of exactly
four tokens fails with `std::out_of_range`. -/
theorem apply_shortest_input (lex : String → Strings) (codes : ByteControl)
    (receivedPlainFrame : String) (start address control crc0 crc1 stop : String)
    (hlex : lex receivedPlainFrame = [start, address, control, crc0, crc1, stop])
    (ha : isHexByteToken address = true) (hc : isHexByteToken control = true)
    (hu : hexByteValue control = codes.SNRM ∨ hexByteValue control = codes.UA)
    (hx : hexByteValue control ≠ codes.XID) :
    apply lex codes receivedPlainFrame
        = .ok (some (.frameU ⟨hexByteValue address, hexByteValue control⟩)) ∧
      ∀ a b c d : String, applyLexed codes [a, b, c, d] = .error .outOfRange := by
  constructor
  · exact applyLexed_uframe (by rw [hlex]; rfl) ha hc hu hx
  · intro a b c d
    rfl

/-- Witness of the amended C8. -/
theorem apply_shortest_input_witness :
    apply lexSpaces sampleCodes "7E A0 73 01 00 7E" = .ok (some (.frameU ⟨0xA0, 0x73⟩)) ∧
      ∀ a b c d : String, applyLexed sampleCodes [a, b, c, d] = .error .outOfRange :=
  apply_shortest_input lexSpaces sampleCodes "7E A0 73 01 00 7E" "7E" "A0" "73" "01" "00" "7E"
    (by decide) (by decide) (by decide) (by decide) (by decide)

/-! ## Theorems on the XID decoder -/

/-- C3: let `groups` be a list of groups `(id, values)` and let the parameter area consist of
two-hex-digit tokens whose bytes are, group after group, the id, the number of values and
the values (`serializeGroups`). If the payload is a header of five two-hex-digit tokens,
whose group-length token denotes the serialized length, the sum of (number of values + 2),
followed by that area, then `interpretBodyFrameXID` succeeds and the parameter groups of
the record are exactly `(id, number of values, values)` in the same order. The bounds of the
claim (bytes in 0..255, lengths at most 255) hold for everything a two-hex-digit token
denotes. -/
theorem interpretBodyFrameXID_inverts_wire_layout (groups : List (Nat × List Nat))
    (address control formatId groupId groupLength : String) (area : Strings)
    (h0 : isHexByteToken address = true) (h1 : isHexByteToken control = true)
    (h2 : isHexByteToken formatId = true) (h3 : isHexByteToken groupId = true)
    (h4 : isHexByteToken groupLength = true)
    (harea : ∀ t ∈ area, isHexByteToken t = true)
    (hlayout : area.map hexByteValue = serializeGroups groups)
    (hL : hexByteValue groupLength = (groups.map (fun g => g.2.length + 2)).sum) :
    interpretBodyFrameXID (address :: control :: formatId :: groupId :: groupLength :: area)
      = .ok ⟨hexByteValue address, hexByteValue control, hexByteValue formatId,
          hexByteValue groupId, hexByteValue groupLength, groups.map groupRecord⟩ := by
  have hlen : area.length = hexByteValue groupLength := by
    rw [hL, ← serializeGroups_length, ← hlayout, List.length_map]
  have hslice : slice (address :: control :: formatId :: groupId :: groupLength :: area)
      ((5 : Nat) : Int) (hexByteValue groupLength : Int) = .ok area := by
    unfold slice
    have hc : ¬ (((5 : Nat) : Int) < 0 ∨ ((hexByteValue groupLength : Nat) : Int) < 0 ∨
        (((address :: control :: formatId :: groupId :: groupLength :: area).length : Nat) : Int)
          < ((5 : Nat) : Int) + ((hexByteValue groupLength : Nat) : Int)) := by
      simp only [List.length_cons]
      omega
    rw [if_neg hc]
    simp [← hlen]
  have hwalk := subgroupWalk_wellFormed groups (area.length + 1) [] area [] harea hlayout
    (by
      have := serializeGroups_length groups
      have h5 : (serializeGroups groups).length = area.length := by
        rw [← hlayout, List.length_map]
      have h6 : groups.length ≤ (groups.map (fun g => g.2.length + 2)).sum := by
        clear hL hlayout this h5 hlen hslice
        induction groups with
        | nil => simp
        | cons g gs ih =>
          simp only [List.length_cons, List.map_cons, List.sum_cons]
          omega
      omega)
  simp only [List.nil_append, List.length_nil] at hwalk
  simp only [interpretBodyFrameXID, vectorAt, List.getElem?_cons_zero, List.getElem?_cons_succ,
    bind, Except.bind, toHexInt_hexByte h0, toHexInt_hexByte h1, toHexInt_hexByte h2,
    toHexInt_hexByte h3, toHexInt_hexByte h4, toInt_hexByte h4, hslice, hwalk, pure,
    Except.pure]

/-- Witness of C3, the spec's example: group length `04` and area `02 02 0A 0B` give the
single group with id `0x02`, length 2 and values `0x0A`, `0x0B`. -/
theorem interpretBodyFrameXID_inverts_wire_layout_witness :
    interpretBodyFrameXID ["03", "BF", "81", "F0", "04", "02", "02", "0A", "0B"]
      = .ok ⟨0x03, 0xBF, 0x81, 0xF0, 0x04, [⟨0x02, 2, [0x0A, 0x0B]⟩]⟩ :=
  interpretBodyFrameXID_inverts_wire_layout [(0x02, [0x0A, 0x0B])] "03" "BF" "81" "F0" "04"
    ["02", "02", "0A", "0B"] (by decide) (by decide) (by decide) (by decide) (by decide)
    (by decide) (by decide) (by decide)

/-- C4: whenever `interpretBodyFrameXID` succeeds, the payload has a token at index 4, `toInt`
decodes it, and the sum over the decoded parameter groups of (declared length + 2) equals
the decoded integer. -/
theorem interpretBodyFrameXID_partition_law (receivedPlainFrame : Strings) (f : FrameXID)
    (h : interpretBodyFrameXID receivedPlainFrame = .ok f) :
    ∃ (t : String) (groupLength : Int),
      receivedPlainFrame[IDX_OF_GROUP_LENGTH_BYTE]? = some t ∧ toInt t = .ok groupLength ∧
      (f.parameters.map (fun p => p.parLen + 2)).sum = groupLength := by
  obtain ⟨t, groupLength, slicedVector, ht, hgl, hslice, hwalk⟩ := interpretBodyFrameXID_eq_ok h
  obtain ⟨_, h0, _, _, hsz⟩ := slice_eq_ok hslice
  obtain ⟨added, hout, hall, hsum⟩ := subgroupWalk_eq_ok hwalk
  rw [List.nil_append] at hout
  refine ⟨t, groupLength, ht, hgl, ?_⟩
  rw [hout, sum_declared_lengths hall]
  omega

/-- Witness of C4: two groups of sizes 2 + 2 and 1 + 2 under the group length `07`. -/
theorem interpretBodyFrameXID_partition_law_witness :
    ∃ (t : String) (groupLength : Int),
      ["03", "BF", "81", "F0", "07", "02", "02", "0A", "0B", "05", "01", "FF"][4]? = some t ∧
      toInt t = .ok groupLength ∧
      ([⟨2, 2, [10, 11]⟩, ⟨5, 1, [255]⟩].map
        (fun p : HDLCParametersValues => p.parLen + 2)).sum = groupLength :=
  interpretBodyFrameXID_partition_law
    ["03", "BF", "81", "F0", "07", "02", "02", "0A", "0B", "05", "01", "FF"]
    ⟨3, 0xBF, 0x81, 0xF0, 7, [⟨2, 2, [10, 11]⟩, ⟨5, 1, [255]⟩]⟩ (by decide)

/-- C10: whenever `interpretBodyFrameXID` succeeds, every parameter group of the record has
as many values as its declared length field says. -/
theorem interpretBodyFrameXID_values_match_length (receivedPlainFrame : Strings)
    (f : FrameXID) (h : interpretBodyFrameXID receivedPlainFrame = .ok f) :
    ∀ p ∈ f.parameters, (p.parVals.length : Int) = p.parLen := by
  obtain ⟨_, _, _, _, _, _, hwalk⟩ := interpretBodyFrameXID_eq_ok h
  obtain ⟨added, hout, hall, _⟩ := subgroupWalk_eq_ok hwalk
  rw [List.nil_append] at hout
  intro p hp
  exact (hall p (hout ▸ hp)).2

/-- Witness of C10 on a payload with two groups: the first group of the record has two
values and the declared length 2. -/
theorem interpretBodyFrameXID_values_match_length_witness :
    interpretBodyFrameXID ["03", "BF", "81", "F0", "06", "02", "02", "0A", "0B", "05", "00"]
        = .ok ⟨3, 0xBF, 0x81, 0xF0, 6, [⟨2, 2, [10, 11]⟩, ⟨5, 0, []⟩]⟩ ∧
      (((⟨2, 2, [10, 11]⟩ : HDLCParametersValues).parVals.length : Nat) : Int)
        = (⟨2, 2, [10, 11]⟩ : HDLCParametersValues).parLen :=
  ⟨by decide,
    interpretBodyFrameXID_values_match_length
      ["03", "BF", "81", "F0", "06", "02", "02", "0A", "0B", "05", "00"]
      ⟨3, 0xBF, 0x81, 0xF0, 6, [⟨2, 2, [10, 11]⟩, ⟨5, 0, []⟩]⟩ (by decide)
      ⟨2, 2, [10, 11]⟩ (by decide)⟩

/-! ## Theorems on the order of the dispatch -/

/-- C14: let `c` be the value decoded from the token at index 1 of the trimmed payload. The
outcome of `apply` is the outcome of the XID decoder when `c` is the XID code; of the U
decoder when `c` is not the XID code and is SNRM or UA; of the I decoder when `c` is neither
the XID code nor a U code and is CALIBRATE_REQ or CALIBRATE_RES; and the null pointer in
every other case. The four cases exclude each other and cover every `c`, so a returned
record is of the variant of the first set that holds `c`, also when the sets overlap. -/
theorem apply_dispatch_precedence (lex : String → Strings) (codes : ByteControl)
    (receivedPlainFrame : String) (payload : Strings) (ctrlToken : String) (c : Nat)
    (htrim : trimFlagsAndCRC (lex receivedPlainFrame) = .ok payload)
    (htoken : payload[IDX_OF_CTRL_BYTE]? = some ctrlToken)
    (hdecode : toHexInt ctrlToken = .ok c) :
    (c = codes.XID → apply lex codes receivedPlainFrame
        = (interpretBodyFrameXID payload).map (fun f => some (.frameXID f))) ∧
    (c ≠ codes.XID → (c = codes.SNRM ∨ c = codes.UA) →
      apply lex codes receivedPlainFrame
        = (interpretBodyFrameU payload).map (fun f => some (.frameU f))) ∧
    (c ≠ codes.XID → c ≠ codes.SNRM → c ≠ codes.UA →
      (c = codes.CALIBRATE_REQ ∨ c = codes.CALIBRATE_RES) →
      apply lex codes receivedPlainFrame
        = (interpretBodyFrameI payload).map (fun f => some (.frameI f))) ∧
    (c ≠ codes.XID → c ≠ codes.SNRM → c ≠ codes.UA →
      c ≠ codes.CALIBRATE_REQ → c ≠ codes.CALIBRATE_RES →
      apply lex codes receivedPlainFrame = .ok none) := by
  have happly : apply lex codes receivedPlainFrame
      = (if codes.XID = c then
          (interpretBodyFrameXID payload).map (fun f => some (.frameXID f))
        else if isFrameU codes c = true then
          (interpretBodyFrameU payload).map (fun f => some (.frameU f))
        else if isFrameI codes c = true then
          (interpretBodyFrameI payload).map (fun f => some (.frameI f))
        else .ok none) := by
    simp only [apply, applyLexed, htrim, vectorAt_eq_ok htoken, hdecode, bind, Except.bind]
    split_ifs
    · cases interpretBodyFrameXID payload <;> rfl
    · cases interpretBodyFrameU payload <;> rfl
    · cases interpretBodyFrameI payload <;> rfl
    · rfl
  have hU : isFrameU codes c = true ↔ (c = codes.SNRM ∨ c = codes.UA) := by
    simp only [isFrameU, Bool.or_eq_true, decide_eq_true_eq]
    constructor <;> rintro (h | h)
    · exact Or.inl h.symm
    · exact Or.inr h.symm
    · exact Or.inl h.symm
    · exact Or.inr h.symm
  have hI : isFrameI codes c = true ↔ (c = codes.CALIBRATE_REQ ∨ c = codes.CALIBRATE_RES) := by
    simp only [isFrameI, Bool.or_eq_true, decide_eq_true_eq]
    constructor <;> rintro (h | h)
    · exact Or.inl h.symm
    · exact Or.inr h.symm
    · exact Or.inl h.symm
    · exact Or.inr h.symm
  refine ⟨?_, ?_, ?_, ?_⟩
  · intro hx
    rw [happly, if_pos hx.symm]
  · intro hx hu
    rw [happly, if_neg (fun h => hx h.symm), if_pos (hU.mpr hu)]
  · intro hx hs hu hi
    have hnu : ¬ isFrameU codes c = true := fun h => (hU.mp h).elim hs hu
    rw [happly, if_neg (fun h => hx h.symm), if_neg hnu, if_pos (hI.mpr hi)]
  · intro hx hs hu hq hr
    have hnu : ¬ isFrameU codes c = true := fun h => (hU.mp h).elim hs hu
    have hni : ¬ isFrameI codes c = true := fun h => (hI.mp h).elim hq hr
    rw [happly, if_neg (fun h => hx h.symm), if_neg hnu, if_neg hni]

/-- Witness of C14 with a table in which the XID code and SNRM are both `0x93`: the XID
decoder runs, not the U decoder, and fails on the two-token payload. -/
theorem apply_dispatch_precedence_witness :
    apply lexSpaces ⟨0x93, 0x93, 0x73, 0x10, 0x30⟩ "7E A0 93 01 00 7E" = .error .outOfRange ∧
      interpretBodyFrameU ["A0", "93"] = .ok ⟨0xA0, 0x93⟩ :=
  ⟨((apply_dispatch_precedence lexSpaces ⟨0x93, 0x93, 0x73, 0x10, 0x30⟩ "7E A0 93 01 00 7E"
      ["A0", "93"] "93" 0x93 (by decide) (by decide) (by decide)).1 rfl).trans (by decide),
    by decide⟩

/-! ## Theorems on the fixed fields -/

theorem interpretBodyFrameI_eq_ok {receivedPlainFrame : Strings} {f : FrameI}
    (h : interpretBodyFrameI receivedPlainFrame = .ok f) :
    ∃ (t0 t1 t2 t3 t4 : String) (l : List Nat),
      receivedPlainFrame[0]? = some t0 ∧ receivedPlainFrame[1]? = some t1 ∧
      receivedPlainFrame[2]? = some t2 ∧ receivedPlainFrame[3]? = some t3 ∧
      receivedPlainFrame[4]? = some t4 ∧
      toHexInt t0 = .ok f.addressByte ∧ toHexInt t1 = .ok f.controlByte ∧
      toHexInt t2 = .ok f.procedureCode ∧ toHexesInt [t3, t4] = .ok l ∧
      f.parameterLength = toHexes l := by
  simp only [interpretBodyFrameI] at h
  obtain ⟨t0, h0, h⟩ := bind_eq_ok h
  obtain ⟨a, ha, h⟩ := bind_eq_ok h
  obtain ⟨t1, h1, h⟩ := bind_eq_ok h
  obtain ⟨c, hc, h⟩ := bind_eq_ok h
  obtain ⟨t2, h2, h⟩ := bind_eq_ok h
  obtain ⟨p, hp, h⟩ := bind_eq_ok h
  obtain ⟨t3, h3, h⟩ := bind_eq_ok h
  obtain ⟨t4, h4, h⟩ := bind_eq_ok h
  obtain ⟨l, hl, h⟩ := bind_eq_ok h
  obtain ⟨t3', _, h⟩ := bind_eq_ok h
  have hfields : f.addressByte = a ∧ f.controlByte = c ∧ f.procedureCode = p ∧
      f.parameterLength = toHexes l := by
    split_ifs at h
    · obtain ⟨t5, _, h⟩ := bind_eq_ok h
      obtain ⟨vals, _, h⟩ := bind_eq_ok h
      simp only [pure, Except.pure, Except.ok.injEq] at h
      subst h
      exact ⟨rfl, rfl, rfl, rfl⟩
    · simp only [pure, Except.pure, Except.ok.injEq] at h
      subst h
      exact ⟨rfl, rfl, rfl, rfl⟩
  obtain ⟨e1, e2, e3, e4⟩ := hfields
  exact ⟨t0, t1, t2, t3, t4, l, vectorAt_ok_iff.mp h0, vectorAt_ok_iff.mp h1,
    vectorAt_ok_iff.mp h2, vectorAt_ok_iff.mp h3, vectorAt_ok_iff.mp h4, e1 ▸ ha, e2 ▸ hc,
    e3 ▸ hp, hl, e4⟩

/-- C15: when `interpretBodyFrameI` succeeds on a payload of two-hex-digit tokens, the payload
has tokens at the indices 0 to 4, the record's address, control and procedure code are the
bytes of the tokens 0, 1 and 2, and its parameter-length field is the sequence of the two
bytes of the tokens 3 and 4, in this order, not one combined integer. -/
theorem interpretBodyFrameI_fixed_fields (receivedPlainFrame : Strings) (f : FrameI)
    (hhex : ∀ t ∈ receivedPlainFrame, isHexByteToken t = true)
    (h : interpretBodyFrameI receivedPlainFrame = .ok f) :
    ∃ t0 t1 t2 t3 t4 : String,
      receivedPlainFrame[IDX_OF_ADDR_BYTE]? = some t0 ∧
      receivedPlainFrame[IDX_OF_CTRL_BYTE]? = some t1 ∧
      receivedPlainFrame[IDX_OF_PROC_BYTE]? = some t2 ∧
      receivedPlainFrame[IDX_OF_LENGTH_BYTE_FST_BIG_END]? = some t3 ∧
      receivedPlainFrame[IDX_OF_LENGTH_BYTE_SND_BIG_END]? = some t4 ∧
      f.addressByte = hexByteValue t0 ∧ f.controlByte = hexByteValue t1 ∧
      f.procedureCode = hexByteValue t2 ∧
      f.parameterLength = [hexByteValue t3, hexByteValue t4] := by
  obtain ⟨t0, t1, t2, t3, t4, l, g0, g1, g2, g3, g4, ha, hc, hp, hl, hf⟩ :=
    interpretBodyFrameI_eq_ok h
  have m0 := hhex t0 (List.getElem?_mem g0)
  have m1 := hhex t1 (List.getElem?_mem g1)
  have m2 := hhex t2 (List.getElem?_mem g2)
  have m3 := hhex t3 (List.getElem?_mem g3)
  have m4 := hhex t4 (List.getElem?_mem g4)
  rw [toHexInt_hexByte m0, Except.ok.injEq] at ha
  rw [toHexInt_hexByte m1, Except.ok.injEq] at hc
  rw [toHexInt_hexByte m2, Except.ok.injEq] at hp
  have hl2 : l = [hexByteValue t3, hexByteValue t4] := by
    have := @toHexesInt_hexBytes [t3, t4] (by
      intro t ht
      rcases List.mem_cons.mp ht with rfl | ht
      · exact m3
      · rcases List.mem_cons.mp ht with rfl | ht
        · exact m4
        · simp at ht)
    rw [this, Except.ok.injEq] at hl
    simpa using hl.symm
  refine ⟨t0, t1, t2, t3, t4, g0, g1, g2, g3, g4, ha.symm, hc.symm, hp.symm, ?_⟩
  rw [hf, hl2]
  simp [toHexes, narrowToHex_hexByte m3, narrowToHex_hexByte m4]

/-- Witness of C15: the length field `01 02` is stored as the pair of bytes 1 and 2. -/
theorem interpretBodyFrameI_fixed_fields_witness :
    ∃ t0 t1 t2 t3 t4 : String,
      ["03", "10", "31", "01", "02", "2A"][0]? = some t0 ∧
      ["03", "10", "31", "01", "02", "2A"][1]? = some t1 ∧
      ["03", "10", "31", "01", "02", "2A"][2]? = some t2 ∧
      ["03", "10", "31", "01", "02", "2A"][3]? = some t3 ∧
      ["03", "10", "31", "01", "02", "2A"][4]? = some t4 ∧
      (3 : Nat) = hexByteValue t0 ∧ (0x10 : Nat) = hexByteValue t1 ∧
      (0x31 : Nat) = hexByteValue t2 ∧
      ([1, 2] : List Nat) = [hexByteValue t3, hexByteValue t4] :=
  interpretBodyFrameI_fixed_fields ["03", "10", "31", "01", "02", "2A"]
    ⟨0x03, 0x10, 0x31, [1, 2], some [0x2A]⟩ (by decide) (by decide)

theorem interpretBodyFrameXID_eq_ok_fields {receivedPlainFrame : Strings} {f : FrameXID}
    (h : interpretBodyFrameXID receivedPlainFrame = .ok f) :
    ∃ (t0 t1 t2 t3 t4 : String) (groupLength : Int) (slicedVector : Strings),
      receivedPlainFrame[0]? = some t0 ∧ receivedPlainFrame[1]? = some t1 ∧
      receivedPlainFrame[2]? = some t2 ∧ receivedPlainFrame[3]? = some t3 ∧
      receivedPlainFrame[4]? = some t4 ∧
      toHexInt t0 = .ok f.addressByte ∧ toHexInt t1 = .ok f.controlByte ∧
      toHexInt t2 = .ok f.formatIdentifierByte ∧ toHexInt t3 = .ok f.groupIdentifierByte ∧
      toHexInt t4 = .ok f.groupLengthByte ∧ toInt t4 = .ok groupLength ∧
      slice receivedPlainFrame 5 groupLength = .ok slicedVector ∧
      subgroupWalk (slicedVector.length + 1) slicedVector 0 [] = .ok f.parameters := by
  simp only [interpretBodyFrameXID] at h
  obtain ⟨t0, g0, h⟩ := bind_eq_ok h
  obtain ⟨a0, e0, h⟩ := bind_eq_ok h
  obtain ⟨t1, g1, h⟩ := bind_eq_ok h
  obtain ⟨a1, e1, h⟩ := bind_eq_ok h
  obtain ⟨t2, g2, h⟩ := bind_eq_ok h
  obtain ⟨a2, e2, h⟩ := bind_eq_ok h
  obtain ⟨t3, g3, h⟩ := bind_eq_ok h
  obtain ⟨a3, e3, h⟩ := bind_eq_ok h
  obtain ⟨t4, g4, h⟩ := bind_eq_ok h
  obtain ⟨a4, e4, h⟩ := bind_eq_ok h
  obtain ⟨t4', g4', h⟩ := bind_eq_ok h
  obtain ⟨groupLength, hgl, h⟩ := bind_eq_ok h
  obtain ⟨slicedVector, hslice, h⟩ := bind_eq_ok h
  obtain ⟨parameters, hwalk, h⟩ := bind_eq_ok h
  simp only [pure, Except.pure, Except.ok.injEq] at h
  subst h
  have ht : t4' = t4 := by
    rw [g4, Except.ok.injEq] at g4'
    exact g4'.symm
  subst ht
  exact ⟨t0, t1, t2, t3, t4', groupLength, slicedVector, vectorAt_ok_iff.mp g0,
    vectorAt_ok_iff.mp g1, vectorAt_ok_iff.mp g2, vectorAt_ok_iff.mp g3, vectorAt_ok_iff.mp g4,
    e0, e1, e2, e3, e4, hgl, hslice, hwalk⟩

/-- C16: when `interpretBodyFrameXID` succeeds on a payload of two-hex-digit tokens, the
record's address, control, format-identifier, group-identifier and group-length bytes are
the bytes of the tokens 0 to 4; the group-length byte of the record, decoded with `toHexInt`,
is the integer that `toInt` decodes from the same token; it is at most 255 and it is the
number of tokens of the parameter area that `slice` cuts out from index 5 on. -/
theorem interpretBodyFrameXID_fixed_header (receivedPlainFrame : Strings) (f : FrameXID)
    (hhex : ∀ t ∈ receivedPlainFrame, isHexByteToken t = true)
    (h : interpretBodyFrameXID receivedPlainFrame = .ok f) :
    ∃ (t0 t1 t2 t3 t4 : String) (slicedVector : Strings),
      receivedPlainFrame[IDX_OF_ADDR_BYTE]? = some t0 ∧
      receivedPlainFrame[IDX_OF_CTRL_BYTE]? = some t1 ∧
      receivedPlainFrame[IDX_OF_FORMAT_ID_BYTE]? = some t2 ∧
      receivedPlainFrame[IDX_OF_GROUP_ID_BYTE]? = some t3 ∧
      receivedPlainFrame[IDX_OF_GROUP_LENGTH_BYTE]? = some t4 ∧
      f.addressByte = hexByteValue t0 ∧ f.controlByte = hexByteValue t1 ∧
      f.formatIdentifierByte = hexByteValue t2 ∧ f.groupIdentifierByte = hexByteValue t3 ∧
      f.groupLengthByte = hexByteValue t4 ∧
      toInt t4 = .ok (f.groupLengthByte : Int) ∧ f.groupLengthByte ≤ 255 ∧
      slice receivedPlainFrame (IDX_OF_HDLC_PARAMETERS_START : Nat) (f.groupLengthByte : Int)
        = .ok slicedVector ∧
      slicedVector.length = f.groupLengthByte := by
  obtain ⟨t0, t1, t2, t3, t4, groupLength, slicedVector, g0, g1, g2, g3, g4, e0, e1, e2, e3,
    e4, hgl, hslice, _⟩ := interpretBodyFrameXID_eq_ok_fields h
  have m0 := hhex t0 (List.getElem?_mem g0)
  have m1 := hhex t1 (List.getElem?_mem g1)
  have m2 := hhex t2 (List.getElem?_mem g2)
  have m3 := hhex t3 (List.getElem?_mem g3)
  have m4 := hhex t4 (List.getElem?_mem g4)
  rw [toHexInt_hexByte m0, Except.ok.injEq] at e0
  rw [toHexInt_hexByte m1, Except.ok.injEq] at e1
  rw [toHexInt_hexByte m2, Except.ok.injEq] at e2
  rw [toHexInt_hexByte m3, Except.ok.injEq] at e3
  rw [toHexInt_hexByte m4, Except.ok.injEq] at e4
  rw [toInt_hexByte m4, Except.ok.injEq] at hgl
  have hlt := hexByteValue_lt m4
  subst hgl
  rw [e4] at hslice
  have hsz := (slice_eq_ok hslice).2.2.2.2
  refine ⟨t0, t1, t2, t3, t4, slicedVector, g0, g1, g2, g3, g4, e0.symm, e1.symm, e2.symm,
    e3.symm, e4.symm, ?_, by omega, hslice, ?_⟩
  · rw [← e4]
    exact toInt_hexByte m4
  · rw [hsz]
    exact Int.toNat_ofNat _

/-- Witness of C16 on the spec's XID example: the group-length token `04` is stored as the
byte 4 and sizes an area of four tokens. -/
theorem interpretBodyFrameXID_fixed_header_witness :
    ∃ (t0 t1 t2 t3 t4 : String) (slicedVector : Strings),
      ["03", "BF", "81", "F0", "04", "02", "02", "0A", "0B"][0]? = some t0 ∧
      ["03", "BF", "81", "F0", "04", "02", "02", "0A", "0B"][1]? = some t1 ∧
      ["03", "BF", "81", "F0", "04", "02", "02", "0A", "0B"][2]? = some t2 ∧
      ["03", "BF", "81", "F0", "04", "02", "02", "0A", "0B"][3]? = some t3 ∧
      ["03", "BF", "81", "F0", "04", "02", "02", "0A", "0B"][4]? = some t4 ∧
      (3 : Nat) = hexByteValue t0 ∧ (0xBF : Nat) = hexByteValue t1 ∧
      (0x81 : Nat) = hexByteValue t2 ∧ (0xF0 : Nat) = hexByteValue t3 ∧
      (4 : Nat) = hexByteValue t4 ∧
      toInt t4 = .ok ((4 : Nat) : Int) ∧ (4 : Nat) ≤ 255 ∧
      slice ["03", "BF", "81", "F0", "04", "02", "02", "0A", "0B"] (5 : Nat) ((4 : Nat) : Int)
        = .ok slicedVector ∧
      slicedVector.length = 4 :=
  interpretBodyFrameXID_fixed_header ["03", "BF", "81", "F0", "04", "02", "02", "0A", "0B"]
    ⟨0x03, 0xBF, 0x81, 0xF0, 0x04, [⟨0x02, 2, [0x0A, 0x0B]⟩]⟩ (by decide) (by decide)

/-! ## Theorems on the tokens after the parameter area -/

theorem subgroupWalk_budget_irrelevant (budget1 budget2 : Nat) (slicedVector : Strings)
    (i : Nat) (parameters : List HDLCParametersValues) (hi : i ≤ slicedVector.length)
    (h1 : (slicedVector.length - i) / 2 < budget1)
    (h2 : (slicedVector.length - i) / 2 < budget2) :
    subgroupWalk budget1 slicedVector i parameters
      = subgroupWalk budget2 slicedVector i parameters := by
  induction budget1 generalizing budget2 i parameters with
  | zero => omega
  | succ b1 ih =>
    obtain ⟨b2, rfl⟩ : ∃ b2, budget2 = b2 + 1 := ⟨budget2 - 1, by omega⟩
    simp only [subgroupWalk]
    split_ifs with hend
    · rfl
    · cases hadd : addHdlcParametersAndReturnPosition parameters slicedVector i with
      | error e => rfl
      | ok r =>
        obtain ⟨ps, next⟩ := r
        obtain ⟨p, _, _, _, hnext, hfit⟩ := addHdlcParameters_eq_ok hadd
        exact ih b2 next ps hfit (by omega) (by omega)

theorem addHdlcParameters_no_length_token {parameters : List HDLCParametersValues}
    {slicedVector : Strings} {i : Nat} {tid : String}
    (hid : slicedVector[i]? = some tid) (hhex : isHexByteToken tid = true)
    (hnone : slicedVector.length ≤ i + 1) :
    addHdlcParametersAndReturnPosition parameters slicedVector i = .error .outOfRange := by
  simp only [addHdlcParametersAndReturnPosition, IDX_OF_SUBGROUP_PAR_ID,
    IDX_OF_SUBGROUP_LENGTH_BYTE, Nat.add_zero, vectorAt_eq_ok hid, toHexInt_hexByte hhex,
    vectorAt_eq_error hnone, bind, Except.bind]

theorem addHdlcParameters_overshoot {parameters : List HDLCParametersValues}
    {slicedVector : Strings} {i : Nat} {tid tlen : String}
    (hid : slicedVector[i]? = some tid) (hhex : isHexByteToken tid = true)
    (hlen : slicedVector[i + 1]? = some tlen) (hhexLen : isHexByteToken tlen = true)
    (hover : slicedVector.length < i + (hexByteValue tlen + 2)) :
    addHdlcParametersAndReturnPosition parameters slicedVector i
      = .error .undefinedBehaviour := by
  have hc : ((i + 2 : Nat) : Int) < 0 ∨ ((hexByteValue tlen : Nat) : Int) < 0 ∨
      (slicedVector.length : Int) < ((i + 2 : Nat) : Int) + ((hexByteValue tlen : Nat) : Int) := by
    omega
  simp only [addHdlcParametersAndReturnPosition, IDX_OF_SUBGROUP_PAR_ID,
    IDX_OF_SUBGROUP_LENGTH_BYTE, IDX_OF_SUBGROUP_VALUES_START, Nat.add_zero,
    vectorAt_eq_ok hid, toHexInt_hexByte hhex, vectorAt_eq_ok hlen, toInt_hexByte hhexLen,
    bind, Except.bind, slice, if_pos hc]

theorem addHdlcParameters_fits {parameters : List HDLCParametersValues}
    {slicedVector : Strings} {i : Nat} {tid tlen : String}
    (hall : ∀ t ∈ slicedVector, isHexByteToken t = true)
    (hid : slicedVector[i]? = some tid) (hlen : slicedVector[i + 1]? = some tlen)
    (hfit : i + (hexByteValue tlen + 2) ≤ slicedVector.length) :
    ∃ out, addHdlcParametersAndReturnPosition parameters slicedVector i
      = .ok (out, i + (hexByteValue tlen + 2)) := by
  have hhex := hall tid (List.getElem?_mem hid)
  have hhexLen := hall tlen (List.getElem?_mem hlen)
  have hc : ¬ (((i + 2 : Nat) : Int) < 0 ∨ ((hexByteValue tlen : Nat) : Int) < 0 ∨
      (slicedVector.length : Int)
        < ((i + 2 : Nat) : Int) + ((hexByteValue tlen : Nat) : Int)) := by
    omega
  have hvals : ∀ t ∈ (slicedVector.drop (i + 2)).take (hexByteValue tlen),
      isHexByteToken t = true := fun t ht =>
    hall t (List.mem_of_mem_drop (List.mem_of_mem_take ht))
  have heq : addHdlcParametersAndReturnPosition parameters slicedVector i
      = .ok (parameters ++ [⟨hexByteValue tid, (hexByteValue tlen : Int),
          toHexes (((slicedVector.drop (i + 2)).take (hexByteValue tlen)).map hexByteValue)⟩],
          i + (hexByteValue tlen + 2)) := by
    simp only [addHdlcParametersAndReturnPosition, IDX_OF_SUBGROUP_PAR_ID,
      IDX_OF_SUBGROUP_LENGTH_BYTE, IDX_OF_SUBGROUP_VALUES_START,
      OFFSET_FOR_IDX_OF_SUBGROUP_VALUES, Nat.add_zero, vectorAt_eq_ok hid,
      toHexInt_hexByte hhex, vectorAt_eq_ok hlen, toInt_hexByte hhexLen, bind, Except.bind,
      slice, if_neg hc, Int.toNat_ofNat, toHexesInt_hexBytes hvals, pure, Except.pure]
  exact ⟨_, heq⟩

/-- On an area of two-hex-digit tokens the loop follows the running offset of the spec: when
that offset does not land on the length of the area, the loop ends with a failure. -/
theorem subgroupWalk_not_landing (slicedVector : Strings)
    (hall : ∀ t ∈ slicedVector, isHexByteToken t = true) (budget specBudget i : Nat)
    (parameters : List HDLCParametersValues) (hi : i ≤ slicedVector.length)
    (hb : slicedVector.length - i < budget) (hs : slicedVector.length - i < specBudget)
    (hbad : runningOffsetLands (slicedVector.map hexByteValue) specBudget i = false) :
    subgroupWalk budget slicedVector i parameters = .error .outOfRange ∨
      subgroupWalk budget slicedVector i parameters = .error .undefinedBehaviour := by
  induction budget generalizing specBudget i parameters with
  | zero => omega
  | succ b ih =>
    cases specBudget with
    | zero => omega
    | succ sb =>
      simp only [runningOffsetLands, List.length_map] at hbad
      by_cases hend : i = slicedVector.length
      · simp [hend] at hbad
      · rw [if_neg hend] at hbad
        have hlt : i < slicedVector.length := by omega
        obtain ⟨tid, hid⟩ : ∃ tid, slicedVector[i]? = some tid :=
          ⟨slicedVector[i], List.getElem?_eq_getElem hlt⟩
        have hhex := hall tid (List.getElem?_mem hid)
        simp only [subgroupWalk, if_neg hend]
        by_cases hlast : slicedVector.length ≤ i + 1
        · rw [addHdlcParameters_no_length_token hid hhex hlast]
          exact Or.inl rfl
        · have hlt1 : i + 1 < slicedVector.length := by omega
          obtain ⟨tlen, hlen⟩ : ∃ tlen, slicedVector[i + 1]? = some tlen :=
            ⟨slicedVector[i + 1], List.getElem?_eq_getElem hlt1⟩
          have hhexLen := hall tlen (List.getElem?_mem hlen)
          have hbyte : (slicedVector.map hexByteValue)[i + 1]? = some (hexByteValue tlen) := by
            rw [List.getElem?_map, hlen]
            rfl
          simp only [hbyte] at hbad
          by_cases hover : slicedVector.length < i + (hexByteValue tlen + 2)
          · rw [addHdlcParameters_overshoot hid hhex hlen hhexLen hover]
            exact Or.inr rfl
          · rw [if_neg hover] at hbad
            obtain ⟨out, hstep⟩ := @addHdlcParameters_fits parameters slicedVector i tid
              tlen hall hid hlen (by omega)
            rw [hstep]
            exact ih sb (i + (hexByteValue tlen + 2)) out (by omega) (by omega) (by omega)
              hbad

/-- The running offset lands on the end of every serialized list of groups: the areas that
the partition test accepts include all the areas of the wire layout. -/
theorem runningOffsetLands_serializeGroups (groups : List (Nat × List Nat))
    (before : List Nat) (budget : Nat) (hb : groups.length < budget) :
    runningOffsetLands (before ++ serializeGroups groups) budget before.length = true := by
  induction groups generalizing before budget with
  | nil =>
    obtain ⟨b, rfl⟩ : ∃ b, budget = b + 1 := ⟨budget - 1, by omega⟩
    simp [runningOffsetLands, serializeGroups]
  | cons g groups ih =>
    obtain ⟨parId, vals⟩ := g
    obtain ⟨b, rfl⟩ : ∃ b, budget = b + 1 := ⟨budget - 1, by omega⟩
    have hne : ¬ before.length
        = (before ++ serializeGroups ((parId, vals) :: groups)).length := by
      simp only [serializeGroups, List.length_append, List.length_cons]
      omega
    have hlenByte : (before ++ serializeGroups ((parId, vals) :: groups))[before.length + 1]?
        = some vals.length := by
      rw [List.getElem?_append_right (by omega)]
      simp [serializeGroups]
    have hfit : ¬ (before ++ serializeGroups ((parId, vals) :: groups)).length
        < before.length + (vals.length + 2) := by
      simp only [serializeGroups, List.length_append, List.length_cons]
      omega
    have hnext := ih (before ++ parId :: vals.length :: vals) b (by simpa using hb)
    have hlist : (before ++ parId :: vals.length :: vals) ++ serializeGroups groups
        = before ++ serializeGroups ((parId, vals) :: groups) := by
      simp [serializeGroups]
    have hlength : (before ++ parId :: vals.length :: vals).length
        = before.length + (vals.length + 2) := by
      simp only [List.length_append, List.length_cons]
    rw [hlist, hlength] at hnext
    simp only [runningOffsetLands, if_neg hne, hlenByte, if_neg hfit, hnext]

/-- What the model gives for a parameter area of two-hex-digit tokens on whose length the
running subgroup offset does not land: `std::out_of_range`, thrown by `at` when the length
byte of a subgroup is missing, or the value that marks the out-of-range `slice` of a
subgroup whose declared length overshoots the area. The second is not a failure of the
source: nothing is thrown there. -/
theorem interpretBodyFrameXID_unpartitionable_outcome
    (address control formatId groupId groupLength : String) (area extra : Strings)
    (h0 : isHexByteToken address = true) (h1 : isHexByteToken control = true)
    (h2 : isHexByteToken formatId = true) (h3 : isHexByteToken groupId = true)
    (h4 : isHexByteToken groupLength = true)
    (harea : ∀ t ∈ area, isHexByteToken t = true)
    (hlen : hexByteValue groupLength = area.length)
    (hbad : isPartitionable (area.map hexByteValue) = false) :
    interpretBodyFrameXID
        (address :: control :: formatId :: groupId :: groupLength :: (area ++ extra))
        = .error .outOfRange ∨
      interpretBodyFrameXID
        (address :: control :: formatId :: groupId :: groupLength :: (area ++ extra))
        = .error .undefinedBehaviour := by
  have hslice : slice
      (address :: control :: formatId :: groupId :: groupLength :: (area ++ extra))
      ((5 : Nat) : Int) (hexByteValue groupLength : Int) = .ok area := by
    unfold slice
    have hc : ¬ (((5 : Nat) : Int) < 0 ∨ ((hexByteValue groupLength : Nat) : Int) < 0 ∨
        (((address :: control :: formatId :: groupId :: groupLength :: (area ++ extra)).length
          : Nat) : Int) < ((5 : Nat) : Int) + ((hexByteValue groupLength : Nat) : Int)) := by
      simp only [List.length_cons, List.length_append]
      omega
    rw [if_neg hc]
    simp [hlen]
  simp only [isPartitionable, List.length_map] at hbad
  have hwalk := subgroupWalk_not_landing area harea (area.length + 1) (area.length + 1) 0 []
    (Nat.zero_le _) (by omega) (by omega) hbad
  have hrun : interpretBodyFrameXID
      (address :: control :: formatId :: groupId :: groupLength :: (area ++ extra))
      = (subgroupWalk (area.length + 1) area 0 []).map (fun parameters =>
          ⟨hexByteValue address, hexByteValue control, hexByteValue formatId,
            hexByteValue groupId, hexByteValue groupLength, parameters⟩) := by
    simp only [interpretBodyFrameXID, vectorAt, List.getElem?_cons_zero,
      List.getElem?_cons_succ, bind, Except.bind, toHexInt_hexByte h0, toHexInt_hexByte h1,
      toHexInt_hexByte h2, toHexInt_hexByte h3, toHexInt_hexByte h4, toInt_hexByte h4, hslice]
    cases subgroupWalk (area.length + 1) area 0 [] <;> rfl
  rw [hrun]
  rcases hwalk with h | h
  · exact Or.inl (by rw [h]; rfl)
  · exact Or.inr (by rw [h]; rfl)

/-! ## Evaluations at malformed inputs -/

/-- C12, the code at failing inputs: `toHexInt` does not look at the state of the stream, so
an address token that is not hexadecimal is decoded, `ZZ` to 0 and `1G` to 1, and `apply`
returns a U-frame record. `toInt`, which uses `std::stoi`, throws on the same token `ZZ`, and
so does `apply` when `ZZ` is the group-length token of an XID frame. -/
theorem apply_non_hex_address_gives_record :
    apply lexSpaces sampleCodes "7E ZZ 93 01 00 7E" = .ok (some (.frameU ⟨0, 0x93⟩)) ∧
    apply lexSpaces sampleCodes "7E 1G 93 01 00 7E" = .ok (some (.frameU ⟨1, 0x93⟩)) ∧
    toHexInt "ZZ" = .ok 0 ∧
    toInt "ZZ" = .error .invalidArgument ∧
    apply lexSpaces sampleCodes "7E 03 BF 81 F0 ZZ 01 00 7E" = .error .invalidArgument := by
  decide

/-- C13, the code at failing inputs: `slice` returns the tokens of the range when the range
lies in the vector; it makes no check, and a range that leaves the vector is undefined
behaviour, not a failure that `slice` reports. So it is with the XID payload whose group
length `04` asks for four tokens where two are left. -/
theorem slice_out_of_range_is_unchecked :
    slice ["A0", "93", "01"] 1 2 = .ok ["93", "01"] ∧
    slice ["A0", "93", "01"] 1 3 = .error .undefinedBehaviour ∧
    interpretBodyFrameXID ["03", "BF", "81", "F0", "04", "02", "02"]
      = .error .undefinedBehaviour := by
  decide

end HDLC
